import Mathlib

/-!
# Verification of the HOS Trip Scheduler (`api/services.py`, class `TripService`)

A shallow embedding, in Lean 4, of the scheduling core of the
transportation backend:

* `TripService.get_number_of_days`          (day-count estimator),
* `TripService.generate_route_instructions` (schedule simulator),
* `TripService.generate_random_current_location` (waypoint provider with
  midpoint fallback).

Modelling conventions:

* Python floats are modelled as exact rationals (`ℚ`); claims about
  rounding are stated with explicit tolerances.
* Python `int(x)` on a non-negative float is `⌊x⌋`.
* Network calls (`requests.get` against OpenRouteService) are modelled by
  explicit inputs: the distance provider is an `Option ℚ` (`none` = the
  lookup failed), and the waypoint lookup outcome is passed in as data.
* Waypoint randomness (`random.randint` + reverse geocoding) is modelled by
  an oracle `ℕ → Location` consumed left to right; the oracle only ever
  fills location fields, never control flow, exactly as in the source.
* The two `while` loops are embedded with an explicit fuel parameter; a
  result of `none` means only that the fuel ran out, while `some` carries
  the segments/days the Python loop would have produced.
* Django persistence (`objects.create`, `trip.save()`,
  `route_instructions.clear()` + `add`) is modelled by returning the new
  trip state: the instruction list is rebuilt from scratch on each run.
-/

namespace TripService

/-- `halt_type` values that `RouteInstruction` rows receive in
`services.py` (the source stores them as strings). -/
inductive Halt where
  | ON_DUTY_NOT_DRIVING
  | STOP
  | DRIVE
  | FUEL
  | BREAK
  | SLEEPER
  | OFF_DUTY
deriving DecidableEq, Repr

/-- `api/models.py`, class `Location`: name, address, latitude, longitude. -/
structure Location where
  name : String
  address : String
  latitude : ℚ
  longitude : ℚ
deriving DecidableEq, Repr

/-- `api/models.py`, class `RouteInstruction`: halt type, duration in
minutes, description, 1-based day index, and the associated location. -/
structure RouteInstruction where
  halt_type : Halt
  duration : ℤ
  description : String
  day : ℕ
  current_location : Location
deriving DecidableEq, Repr

/-- `api/models.py`, class `Trip` (the fields the scheduler reads/writes). -/
structure Trip where
  pickup_location : Location
  dropoff_location : Location
  cycle_used : ℤ
  distance : ℚ
  number_of_days : ℕ
  route_instructions : List RouteInstruction
deriving DecidableEq, Repr

/-! ## Constants of `TripService` -/

def AVG_SPEED_MPH : ℚ := 55
def FUEL_STOP_INTERVAL : ℚ := 1000
def FUEL_STOP_DURATION : ℚ := 30
def PICKUP_DROPOFF_DURATION : ℚ := 60
def MAX_DRIVE_HOURS_PER_DAY : ℚ := 11
def MAX_ON_DUTY_HOURS_PER_DAY : ℚ := 14
def MANDATORY_BREAK_DURATION : ℚ := 30
def MANDATORY_BREAK_THRESHOLD : ℚ := 8
def SLEEPER_BERTH_DURATION : ℚ := 7
def OFF_DUTY_DURATION : ℚ := 3
def DRIVER_WAKE_UP_TIME : ℚ := 4
def DRIVER_START_TIME : ℚ := 6

/-- The floating-point epsilon `0.01` used by the main loop's
`while remaining_distance > 0.01` condition. -/
def EPSILON : ℚ := 1 / 100

/-! ## `generate_random_current_location` -/

/-- Python's `str.capitalize()`: first character upper-cased, the rest
lower-cased. -/
def pyCapitalize (s : String) : String :=
  match s.data with
  | [] => ""
  | c :: cs => String.mk (c.toUpper :: cs.map Char.toLower)

/-- The data `generate_random_current_location` extracts from a successful
OpenRouteService directions response: the route polyline as
`(longitude, latitude)` pairs, the first named step (defaulting to
`"Unknown Location"` / `"Unknown"` when absent), and the reverse-geocode
outcome (`none` when that inner request raised, which the source catches
locally). -/
structure RouteData where
  coordinates : List (ℚ × ℚ)
  step_name : String
  step_address : String
  geocode_name : Option String
  geocode_label : Option String
deriving DecidableEq, Repr

/-- The fallback location built in both `except` branches of
`generate_random_current_location` (`services.py` lines 197-214). -/
def fallbackLocation (pickup_location dropoff_location : Location)
    (halt_type : String) : Location :=
  { name := if halt_type ≠ "STOP"
      then pyCapitalize halt_type ++ " Stop: Fallback Location"
      else "Fallback Location"
    address := "Unknown"
    latitude := (pickup_location.latitude + dropoff_location.latitude) / 2
    longitude := (pickup_location.longitude + dropoff_location.longitude) / 2 }

/-- `TripService.generate_random_current_location` (`services.py` lines
115-214).  `lookup = none` stands for any raised lookup error (request
exception, missing features/geometry — every raise inside the `try` is
caught by the two `except` clauses and lands in the fallback branch).
`random_index` stands for `random.randint(1, len(coordinates) - 2)`.
The created `Location` row is returned. -/
def generate_random_current_location (pickup_location dropoff_location : Location)
    (halt_type : String) (lookup : Option RouteData) (random_index : ℕ) : Location :=
  match lookup with
  | none => fallbackLocation pickup_location dropoff_location halt_type
  | some data =>
    if data.coordinates.length < 2 then
      -- `raise ValueError("Insufficient coordinates ...")`, caught below
      fallbackLocation pickup_location dropoff_location halt_type
    else
      let random_coord := data.coordinates.getD random_index (0, 0)
      let name := data.geocode_name.getD data.step_name
      let address := (data.geocode_label.getD data.step_address)
      let location_name :=
        if halt_type = "DRIVE" then name
        else if halt_type ≠ "STOP" then pyCapitalize halt_type ++ " Stop: " ++ name
        else name
      { name := location_name
        address := address
        latitude := random_coord.2
        longitude := random_coord.1 }

/-! ## The schedule simulator `generate_route_instructions` -/

/-- The mutable locals of the main loop of `generate_route_instructions`
(`services.py` lines 289-297), plus the position of the waypoint oracle
(how many `generate_random_current_location` calls have been made). -/
structure SimState where
  current_time : ℚ
  current_day : ℕ
  remaining_distance : ℚ
  total_driving_time_today : ℚ
  on_duty_window : ℚ
  distance_covered : ℚ
  has_taken_break : Bool
  oracle_pos : ℕ
deriving DecidableEq, Repr

/-- The drivable chunk (`services.py` lines 327-332): the minimum of the
break threshold (or the daily cap if a break was already taken this
window), the remaining daily driving cap, the remaining on-duty window,
and the remaining distance at average speed.  Python's four-argument
`min` is left-associated. -/
def driving_hours_before_break (st : SimState) : ℚ :=
  min (min (if st.has_taken_break then MAX_DRIVE_HOURS_PER_DAY
            else MANDATORY_BREAK_THRESHOLD)
           (MAX_DRIVE_HOURS_PER_DAY - st.total_driving_time_today))
      (min (MAX_ON_DUTY_HOURS_PER_DAY - st.on_duty_window)
           (st.remaining_distance / AVG_SPEED_MPH))

/-- Driving part of the loop body (`services.py` lines 326-355): if the
drivable chunk is positive, a `DRIVE` segment of `int(chunk * 60)`
minutes is emitted and distance/clock/window counters advance. -/
def drive_phase (o : ℕ → Location) (st : SimState) :
    List RouteInstruction × SimState :=
  if driving_hours_before_break st > 0 then
    ([{ halt_type := Halt.DRIVE
        duration := ⌊driving_hours_before_break st * 60⌋
        description := "Driving"
        day := st.current_day
        current_location := o st.oracle_pos }],
     { st with
        remaining_distance := st.remaining_distance
          - driving_hours_before_break st * AVG_SPEED_MPH
        distance_covered := st.distance_covered
          + driving_hours_before_break st * AVG_SPEED_MPH
        current_time := st.current_time + driving_hours_before_break st
        on_duty_window := st.on_duty_window + driving_hours_before_break st
        total_driving_time_today := st.total_driving_time_today
          + driving_hours_before_break st
        oracle_pos := st.oracle_pos + 1 })
  else ([], st)

/-- Fuel-stop part of the loop body (`services.py` lines 357-373): a
30-minute `FUEL` segment once 1,000 miles have accumulated since the last
fuel stop (only for trips of at least 1,000 miles); the counter is reset
by subtracting 1,000, carrying the remainder. -/
def fuel_phase (distance : ℚ) (o : ℕ → Location) (st : SimState) :
    List RouteInstruction × SimState :=
  if distance ≥ FUEL_STOP_INTERVAL ∧ st.distance_covered ≥ FUEL_STOP_INTERVAL then
    ([{ halt_type := Halt.FUEL
        duration := 30
        description := "Fuel stop"
        day := st.current_day
        current_location := o st.oracle_pos }],
     { st with
        current_time := st.current_time + FUEL_STOP_DURATION / 60
        on_duty_window := st.on_duty_window + FUEL_STOP_DURATION / 60
        distance_covered := st.distance_covered - FUEL_STOP_INTERVAL
        oracle_pos := st.oracle_pos + 1 })
  else ([], st)

/-- Mandatory-break part of the loop body (`services.py` lines 375-391):
a 30-minute `BREAK` segment once 8 hours of driving have accumulated in
the current on-duty window, at most once per window
(`has_taken_break`). -/
def break_phase (o : ℕ → Location) (st : SimState) :
    List RouteInstruction × SimState :=
  if ¬ st.has_taken_break ∧
      st.total_driving_time_today ≥ MANDATORY_BREAK_THRESHOLD then
    ([{ halt_type := Halt.BREAK
        duration := 30
        description := "Mandatory 30-minute rest break"
        day := st.current_day
        current_location := o st.oracle_pos }],
     { st with
        current_time := st.current_time + MANDATORY_BREAK_DURATION / 60
        on_duty_window := st.on_duty_window + MANDATORY_BREAK_DURATION / 60
        has_taken_break := true
        oracle_pos := st.oracle_pos + 1 })
  else ([], st)

/-- Rest part of the loop body (`services.py` lines 393-429): when the
11-hour daily driving cap or the 14-hour on-duty window is exhausted and
distance remains, emit a 7-hour `SLEEPER` and a 3-hour `OFF_DUTY` segment
(sharing one waypoint), reset the window counters and the break flag,
and advance the day by one if the running clock has crossed 24 hours. -/
def rest_phase (o : ℕ → Location) (st : SimState) :
    List RouteInstruction × SimState :=
  if (st.total_driving_time_today ≥ MAX_DRIVE_HOURS_PER_DAY ∨
      st.on_duty_window ≥ MAX_ON_DUTY_HOURS_PER_DAY) ∧
      st.remaining_distance > EPSILON then
    let loc := o st.oracle_pos
    let time_after := st.current_time + SLEEPER_BERTH_DURATION + OFF_DUTY_DURATION
    ([{ halt_type := Halt.SLEEPER
        duration := 420
        description := "Sleeper Berth Rest"
        day := st.current_day
        current_location := loc },
      { halt_type := Halt.OFF_DUTY
        duration := 180
        description := "Off Duty Rest"
        day := st.current_day
        current_location := loc }],
     { st with
        current_time := if time_after ≥ 24 then time_after - 24 else time_after
        current_day := if time_after ≥ 24 then st.current_day + 1 else st.current_day
        total_driving_time_today := 0
        on_duty_window := 0
        has_taken_break := false
        oracle_pos := st.oracle_pos + 1 })
  else ([], st)

/-- One iteration of the main loop of `generate_route_instructions`:
drive, then fuel stop, then mandatory break, then rest, in source
order. -/
def sim_step (distance : ℚ) (o : ℕ → Location) (st : SimState) :
    List RouteInstruction × SimState :=
  let d := drive_phase o st
  let f := fuel_phase distance o d.2
  let b := break_phase o f.2
  let r := rest_phase o b.2
  (d.1 ++ (f.1 ++ (b.1 ++ r.1)), r.2)

/-- The main loop `while remaining_distance > 0.01` of
`generate_route_instructions`, with explicit fuel.  Returns the segments
emitted by the loop and the final state, or `none` if the fuel ran out
before the loop condition turned false. -/
def sim_loop (distance : ℚ) (o : ℕ → Location) :
    ℕ → SimState → Option (List RouteInstruction × SimState)
  | 0, st => if st.remaining_distance > EPSILON then none else some ([], st)
  | n + 1, st =>
    if st.remaining_distance > EPSILON then
      let step := sim_step distance o st
      (sim_loop distance o n step.2).map fun rest => (step.1 ++ rest.1, rest.2)
    else some ([], st)

/-- The pre-trip `ON_DUTY_NOT_DRIVING` segment (`services.py` lines
299-308): 2 hours at the pickup location, day 1. -/
def pre_trip_instruction (pickup : Location) : RouteInstruction :=
  { halt_type := Halt.ON_DUTY_NOT_DRIVING
    duration := ⌊(DRIVER_START_TIME - DRIVER_WAKE_UP_TIME) * 60⌋
    description := "Pre-trip preparation and travel to pickup location"
    day := 1
    current_location := pickup }

/-- The pickup `STOP` segment (`services.py` lines 312-320): 60 minutes
at the pickup location, day 1. -/
def pickup_instruction (pickup : Location) : RouteInstruction :=
  { halt_type := Halt.STOP
    duration := 60
    description := "Pickup at location"
    day := 1
    current_location := pickup }

/-- The state of the loop locals at entry to the main loop, after the
pre-trip and pickup segments have advanced the clock from 4:00 to 7:00
and the on-duty window to 3 hours (`services.py` lines 289-322). -/
def initial_state (distance : ℚ) : SimState :=
  { current_time := DRIVER_WAKE_UP_TIME
      + (DRIVER_START_TIME - DRIVER_WAKE_UP_TIME)
      + PICKUP_DROPOFF_DURATION / 60
    current_day := 1
    remaining_distance := distance
    total_driving_time_today := 0
    on_duty_window := 0
      + (DRIVER_START_TIME - DRIVER_WAKE_UP_TIME)
      + PICKUP_DROPOFF_DURATION / 60
    distance_covered := 0
    has_taken_break := false
    oracle_pos := 0 }

/-- The dropoff `STOP` segment (`services.py` lines 431-439): 60 minutes
at the dropoff location, carrying the final day index. -/
def dropoff_instruction (dropoff : Location) (day : ℕ) : RouteInstruction :=
  { halt_type := Halt.STOP
    duration := 60
    description := "Dropoff at location"
    day := day
    current_location := dropoff }

/-- `generate_route_instructions` from the point where the distance is
known (`services.py` lines 282-448): emits pre-trip, pickup, the loop's
segments and the final dropoff `STOP`, and computes `number_of_days`
(`current_day`, plus one if the final clock reading is not below 24). -/
def generate_route_instructions_core (distance : ℚ)
    (pickup dropoff : Location) (o : ℕ → Location) (fuel : ℕ) :
    Option (List RouteInstruction × ℕ) :=
  (sim_loop distance o fuel (initial_state distance)).map fun res =>
    ([pre_trip_instruction pickup, pickup_instruction pickup] ++ res.1 ++
      [dropoff_instruction dropoff res.2.current_day],
     if res.2.current_time + PICKUP_DROPOFF_DURATION / 60 < 24
     then res.2.current_day else res.2.current_day + 1)

/-- Outcome of one run of `generate_route_instructions`: either the
updated trip, or the `ValueError` raise with the trip exactly as it was
(the raise happens before any mutation of the trip). -/
inductive SimOutcome where
  | ok (t : Trip)
  | error (t : Trip)
deriving DecidableEq, Repr

/-- `TripService.generate_route_instructions` (`services.py` lines
265-448).  `provider` models `get_distance_and_duration` (`none` = the
distance lookup failed).  It is consulted only when `trip.distance == 0`;
if it fails there, `ValueError` is raised before anything is persisted.
Otherwise the trip's instruction list is cleared and rebuilt and its
`distance` / `number_of_days` fields are updated. -/
def generate_route_instructions (provider : Option ℚ) (o : ℕ → Location)
    (fuel : ℕ) (trip : Trip) : Option SimOutcome :=
  if trip.distance = 0 then
    match provider with
    | none => some (SimOutcome.error trip)
    | some d =>
      (generate_route_instructions_core d trip.pickup_location
          trip.dropoff_location o fuel).map fun res =>
        SimOutcome.ok { trip with
          distance := d
          route_instructions := res.1
          number_of_days := res.2 }
  else
    (generate_route_instructions_core trip.distance trip.pickup_location
        trip.dropoff_location o fuel).map fun res =>
      SimOutcome.ok { trip with
        route_instructions := res.1
        number_of_days := res.2 }

/-! ## The day-count estimator `get_number_of_days` -/

/-- The mutable locals of the clock-simulation loop of
`get_number_of_days` (`services.py` lines 61-65). -/
structure DayState where
  current_time : ℚ
  remaining_driving_hours : ℚ
  total_driving_time_today : ℚ
  on_duty_window : ℚ
  num_days : ℕ
deriving DecidableEq, Repr

/-- One iteration of the `while remaining_driving_hours > 0` loop of
`get_number_of_days` (`services.py` lines 71-104): drive a chunk, add the
30-minute break when 8 hours of driving are reached inside the window,
and insert the 10-hour rest (with the 24-hour day-crossing check) when a
daily cap is exhausted and driving remains. -/
def days_step (st : DayState) : DayState :=
  let driving_hours_before_break :=
    min (min MANDATORY_BREAK_THRESHOLD
             (MAX_DRIVE_HOURS_PER_DAY - st.total_driving_time_today))
        (min (MAX_ON_DUTY_HOURS_PER_DAY - st.on_duty_window)
             st.remaining_driving_hours)
  let st1 :=
    if driving_hours_before_break > 0 then
      { st with
        current_time := st.current_time + driving_hours_before_break
        on_duty_window := st.on_duty_window + driving_hours_before_break
        total_driving_time_today :=
          st.total_driving_time_today + driving_hours_before_break
        remaining_driving_hours :=
          st.remaining_driving_hours - driving_hours_before_break }
    else st
  let st2 :=
    if st1.total_driving_time_today ≥ MANDATORY_BREAK_THRESHOLD ∧
        st1.on_duty_window < MAX_ON_DUTY_HOURS_PER_DAY then
      { st1 with
        current_time := st1.current_time + MANDATORY_BREAK_DURATION / 60
        on_duty_window := st1.on_duty_window + MANDATORY_BREAK_DURATION / 60 }
    else st1
  if (st2.total_driving_time_today ≥ MAX_DRIVE_HOURS_PER_DAY ∨
      st2.on_duty_window ≥ MAX_ON_DUTY_HOURS_PER_DAY) ∧
      st2.remaining_driving_hours > 0 then
    let time_after :=
      st2.current_time + (SLEEPER_BERTH_DURATION + OFF_DUTY_DURATION)
    { st2 with
      current_time := if time_after ≥ 24 then time_after - 24 else time_after
      num_days := if time_after ≥ 24 then st2.num_days + 1 else st2.num_days
      total_driving_time_today := 0
      on_duty_window := 0 }
  else st2

/-- The `while remaining_driving_hours > 0` loop of `get_number_of_days`,
with explicit fuel (`none` = fuel exhausted before the loop finished). -/
def days_loop : ℕ → DayState → Option DayState
  | 0, st => if st.remaining_driving_hours > 0 then none else some st
  | n + 1, st =>
    if st.remaining_driving_hours > 0 then days_loop n (days_step st)
    else some st

/-- The loop locals at entry to the clock simulation (`services.py`
lines 61-69): the clock starts at 4:00 plus the 2-hour pre-trip interval,
which is also charged to the on-duty window. -/
def days_initial_state (driving_hours : ℚ) : DayState :=
  { current_time := DRIVER_WAKE_UP_TIME
      + (DRIVER_START_TIME - DRIVER_WAKE_UP_TIME)
    remaining_driving_hours := driving_hours
    total_driving_time_today := 0
    on_duty_window := 0 + (DRIVER_START_TIME - DRIVER_WAKE_UP_TIME)
    num_days := 1 }

set_option linter.unusedVariables false in
/-- `TripService.get_number_of_days` (`services.py` lines 28-113) from
the point where the distance is known, including the non-driving
overhead aggregates of lines 44-58, which the remainder of the function
never reads.  After the loop the combined pickup-and-dropoff interval
(`PICKUP_DROPOFF_DURATION * 2 / 60` = 2 hours) is added to the clock, the
day count is incremented once more if the clock reaches 24, and
`max(1, num_days)` is returned. -/
def get_number_of_days (fuel : ℕ) (distance : ℚ) : Option ℕ :=
  let driving_hours := distance / AVG_SPEED_MPH
  let total_fuel_stops : ℤ := max 0 ⌊distance / FUEL_STOP_INTERVAL⌋
  let fuel_stop_hours := (total_fuel_stops : ℚ) * (FUEL_STOP_DURATION / 60)
  let total_on_duty_windows := driving_hours / MAX_ON_DUTY_HOURS_PER_DAY
  let total_breaks : ℤ := max 0 ⌊total_on_duty_windows⌋
  let break_hours := (total_breaks : ℚ) * (MANDATORY_BREAK_DURATION / 60)
  let total_non_driving_hours :=
    (PICKUP_DROPOFF_DURATION * 2 / 60) + fuel_stop_hours + break_hours
      + (DRIVER_START_TIME - DRIVER_WAKE_UP_TIME)
  let total_hours := driving_hours + total_non_driving_hours
  (days_loop fuel (days_initial_state driving_hours)).map fun stf =>
    let final_time := stf.current_time + PICKUP_DROPOFF_DURATION * 2 / 60
    max 1 (if final_time ≥ 24 then stf.num_days + 1 else stf.num_days)

/-- The claim-facing simplification of `get_number_of_days`: the same
clock simulation and tail, with the unused overhead aggregates
(fuel-stop hours, break hours, total non-driving hours) omitted. -/
def get_number_of_days_simplified (fuel : ℕ) (distance : ℚ) : Option ℕ :=
  let driving_hours := distance / AVG_SPEED_MPH
  (days_loop fuel (days_initial_state driving_hours)).map fun stf =>
    let final_time := stf.current_time + PICKUP_DROPOFF_DURATION * 2 / 60
    max 1 (if final_time ≥ 24 then stf.num_days + 1 else stf.num_days)

/-- Modelled from the claim's words (not the source), for comparison:
`get_number_of_days` as it would be if, after the loop, it added exactly
one 60-minute dropoff interval to the clock instead of the 120-minute
pickup-plus-dropoff interval the source adds. -/
def get_number_of_days_claimed_tail (fuel : ℕ) (distance : ℚ) : Option ℕ :=
  let driving_hours := distance / AVG_SPEED_MPH
  (days_loop fuel (days_initial_state driving_hours)).map fun stf =>
    let final_time := stf.current_time + PICKUP_DROPOFF_DURATION / 60
    max 1 (if final_time ≥ 24 then stf.num_days + 1 else stf.num_days)

/-! ## Observation helpers used to state the claims -/

/-- Sum of the durations (minutes) of the `DRIVE` segments of a list. -/
def driveSum (l : List RouteInstruction) : ℤ :=
  (l.map fun s => if s.halt_type = Halt.DRIVE then s.duration else 0).sum

/-- Number of `DRIVE` segments of a list. -/
def driveCount (l : List RouteInstruction) : ℕ :=
  (l.filter fun s => s.halt_type = Halt.DRIVE).length

/-- Number of `BREAK` segments of a list. -/
def breakCount (l : List RouteInstruction) : ℕ :=
  (l.filter fun s => s.halt_type = Halt.BREAK).length

/-- Splits a schedule into its on-duty windows: each `OFF_DUTY` segment
(the tail of a 10-hour rest) closes a window; the final window is
whatever follows the last rest. -/
def splitWindows : List RouteInstruction → List (List RouteInstruction)
  | [] => [[]]
  | s :: rest =>
    if s.halt_type = Halt.OFF_DUTY then
      [s] :: splitWindows rest
    else
      match splitWindows rest with
      | [] => [[s]]
      | w :: ws => (s :: w) :: ws

/-- The schedule data of a segment that is independent of waypoint
generation: halt category, duration and day index. -/
def scheduleTriple (s : RouteInstruction) : Halt × ℤ × ℕ :=
  (s.halt_type, s.duration, s.day)

/-- The waypoint-independent projection of a simulation outcome:
resolved distance, day count, and the halt/duration/day triples. -/
def outcomeSchedule : SimOutcome → Bool × ℚ × ℕ × List (Halt × ℤ × ℕ)
  | SimOutcome.ok t => (true, t.distance, t.number_of_days,
      t.route_instructions.map scheduleTriple)
  | SimOutcome.error t => (false, t.distance, t.number_of_days,
      t.route_instructions.map scheduleTriple)

/-! ## Elementary facts about the drivable chunk -/

lemma chunk_le_flag_cap (st : SimState) :
    driving_hours_before_break st ≤
      (if st.has_taken_break then MAX_DRIVE_HOURS_PER_DAY
       else MANDATORY_BREAK_THRESHOLD) :=
  le_trans (min_le_left _ _) (min_le_left _ _)

lemma chunk_le_daily_cap (st : SimState) :
    driving_hours_before_break st ≤
      MAX_DRIVE_HOURS_PER_DAY - st.total_driving_time_today :=
  le_trans (min_le_left _ _) (min_le_right _ _)

lemma chunk_le_window_cap (st : SimState) :
    driving_hours_before_break st ≤
      MAX_ON_DUTY_HOURS_PER_DAY - st.on_duty_window :=
  le_trans (min_le_right _ _) (min_le_left _ _)

lemma chunk_le_remaining (st : SimState) :
    driving_hours_before_break st ≤
      st.remaining_distance / AVG_SPEED_MPH :=
  le_trans (min_le_right _ _) (min_le_right _ _)

lemma chunk_le_eight (st : SimState) (h : st.has_taken_break = false) :
    driving_hours_before_break st ≤ 8 := by
  have := chunk_le_flag_cap st
  rw [h] at this
  simpa [MANDATORY_BREAK_THRESHOLD] using this

/-- In a fresh window (no break yet, no driving yet, an on-duty window of
at most 3 hours) with distance left, the drivable chunk is positive. -/
lemma chunk_pos (st : SimState) (hb : st.has_taken_break = false)
    (ht : st.total_driving_time_today = 0) (hw : st.on_duty_window ≤ 3)
    (hr : 0 < st.remaining_distance) : 0 < driving_hours_before_break st := by
  rw [driving_hours_before_break, hb, ht]
  rw [lt_min_iff, lt_min_iff, lt_min_iff]
  refine ⟨⟨?_, ?_⟩, ?_, ?_⟩
  · norm_num [MANDATORY_BREAK_THRESHOLD]
  · norm_num [MAX_DRIVE_HOURS_PER_DAY]
  · have : (MAX_ON_DUTY_HOURS_PER_DAY : ℚ) = 14 := rfl
    linarith
  · have : (AVG_SPEED_MPH : ℚ) = 55 := rfl
    rw [this]
    positivity

/-! ## Phase characterization lemmas -/

lemma drive_phase_pos (o : ℕ → Location) (st : SimState)
    (h : driving_hours_before_break st > 0) :
    drive_phase o st =
      ([{ halt_type := Halt.DRIVE
          duration := ⌊driving_hours_before_break st * 60⌋
          description := "Driving"
          day := st.current_day
          current_location := o st.oracle_pos }],
       { st with
          remaining_distance := st.remaining_distance
            - driving_hours_before_break st * AVG_SPEED_MPH
          distance_covered := st.distance_covered
            + driving_hours_before_break st * AVG_SPEED_MPH
          current_time := st.current_time + driving_hours_before_break st
          on_duty_window := st.on_duty_window + driving_hours_before_break st
          total_driving_time_today := st.total_driving_time_today
            + driving_hours_before_break st
          oracle_pos := st.oracle_pos + 1 }) := by
  rw [drive_phase, if_pos h]

lemma drive_phase_neg (o : ℕ → Location) (st : SimState)
    (h : ¬ driving_hours_before_break st > 0) :
    drive_phase o st = ([], st) := by
  rw [drive_phase, if_neg h]

lemma fuel_phase_pos (distance : ℚ) (o : ℕ → Location) (st : SimState)
    (h : distance ≥ FUEL_STOP_INTERVAL ∧
         st.distance_covered ≥ FUEL_STOP_INTERVAL) :
    fuel_phase distance o st =
      ([{ halt_type := Halt.FUEL
          duration := 30
          description := "Fuel stop"
          day := st.current_day
          current_location := o st.oracle_pos }],
       { st with
          current_time := st.current_time + FUEL_STOP_DURATION / 60
          on_duty_window := st.on_duty_window + FUEL_STOP_DURATION / 60
          distance_covered := st.distance_covered - FUEL_STOP_INTERVAL
          oracle_pos := st.oracle_pos + 1 }) := by
  rw [fuel_phase, if_pos h]

lemma fuel_phase_neg (distance : ℚ) (o : ℕ → Location) (st : SimState)
    (h : ¬ (distance ≥ FUEL_STOP_INTERVAL ∧
            st.distance_covered ≥ FUEL_STOP_INTERVAL)) :
    fuel_phase distance o st = ([], st) := by
  rw [fuel_phase, if_neg h]

lemma break_phase_pos (o : ℕ → Location) (st : SimState)
    (h : ¬ st.has_taken_break ∧
         st.total_driving_time_today ≥ MANDATORY_BREAK_THRESHOLD) :
    break_phase o st =
      ([{ halt_type := Halt.BREAK
          duration := 30
          description := "Mandatory 30-minute rest break"
          day := st.current_day
          current_location := o st.oracle_pos }],
       { st with
          current_time := st.current_time + MANDATORY_BREAK_DURATION / 60
          on_duty_window := st.on_duty_window + MANDATORY_BREAK_DURATION / 60
          has_taken_break := true
          oracle_pos := st.oracle_pos + 1 }) := by
  rw [break_phase, if_pos h]

lemma break_phase_neg (o : ℕ → Location) (st : SimState)
    (h : ¬ (¬ st.has_taken_break ∧
            st.total_driving_time_today ≥ MANDATORY_BREAK_THRESHOLD)) :
    break_phase o st = ([], st) := by
  rw [break_phase, if_neg h]

lemma rest_phase_pos (o : ℕ → Location) (st : SimState)
    (h : (st.total_driving_time_today ≥ MAX_DRIVE_HOURS_PER_DAY ∨
          st.on_duty_window ≥ MAX_ON_DUTY_HOURS_PER_DAY) ∧
          st.remaining_distance > EPSILON) :
    rest_phase o st =
      ([{ halt_type := Halt.SLEEPER
          duration := 420
          description := "Sleeper Berth Rest"
          day := st.current_day
          current_location := o st.oracle_pos },
        { halt_type := Halt.OFF_DUTY
          duration := 180
          description := "Off Duty Rest"
          day := st.current_day
          current_location := o st.oracle_pos }],
       { st with
          current_time :=
            if st.current_time + SLEEPER_BERTH_DURATION + OFF_DUTY_DURATION ≥ 24
            then st.current_time + SLEEPER_BERTH_DURATION + OFF_DUTY_DURATION - 24
            else st.current_time + SLEEPER_BERTH_DURATION + OFF_DUTY_DURATION
          current_day :=
            if st.current_time + SLEEPER_BERTH_DURATION + OFF_DUTY_DURATION ≥ 24
            then st.current_day + 1 else st.current_day
          total_driving_time_today := 0
          on_duty_window := 0
          has_taken_break := false
          oracle_pos := st.oracle_pos + 1 }) := by
  rw [rest_phase, if_pos h]

lemma rest_phase_neg (o : ℕ → Location) (st : SimState)
    (h : ¬ ((st.total_driving_time_today ≥ MAX_DRIVE_HOURS_PER_DAY ∨
             st.on_duty_window ≥ MAX_ON_DUTY_HOURS_PER_DAY) ∧
             st.remaining_distance > EPSILON)) :
    rest_phase o st = ([], st) := by
  rw [rest_phase, if_neg h]

/-! ## The loop-head invariant of the main simulation loop -/

/-- Invariant holding at every head of the
`while remaining_distance > 0.01` loop (and vacuously preserved once the
loop has exited). -/
structure Inv (st : SimState) : Prop where
  rem_nonneg : 0 ≤ st.remaining_distance
  tdtt_nonneg : 0 ≤ st.total_driving_time_today
  tdtt_le : st.total_driving_time_today ≤ MAX_DRIVE_HOURS_PER_DAY
  odw_nonneg : 0 ≤ st.on_duty_window
  day_pos : 1 ≤ st.current_day
  flag_tdtt : st.has_taken_break = true →
    MANDATORY_BREAK_THRESHOLD ≤ st.total_driving_time_today
  noflag_tdtt : st.has_taken_break = false →
    st.total_driving_time_today < MANDATORY_BREAK_THRESHOLD
  noflag_fresh : st.has_taken_break = false →
    EPSILON < st.remaining_distance →
    st.total_driving_time_today = 0 ∧ st.on_duty_window ≤ 3

lemma Inv_initial (distance : ℚ) (h : 0 ≤ distance) :
    Inv (initial_state distance) := by
  constructor <;>
    norm_num [initial_state, MAX_DRIVE_HOURS_PER_DAY, MANDATORY_BREAK_THRESHOLD,
      DRIVER_WAKE_UP_TIME, DRIVER_START_TIME, PICKUP_DROPOFF_DURATION, h]

/-! ## Counting helpers -/

lemma breakCount_nil : breakCount [] = 0 := rfl

lemma driveSum_nil : driveSum [] = 0 := rfl

lemma breakCount_append (a b : List RouteInstruction) :
    breakCount (a ++ b) = breakCount a + breakCount b := by
  simp [breakCount, List.filter_append]

lemma driveSum_append (a b : List RouteInstruction) :
    driveSum (a ++ b) = driveSum a + driveSum b := by
  simp [driveSum]

lemma driveCount_append (a b : List RouteInstruction) :
    driveCount (a ++ b) = driveCount a + driveCount b := by
  simp [driveCount, List.filter_append]

lemma breakCount_cons (s : RouteInstruction) (l : List RouteInstruction) :
    breakCount (s :: l) =
      (if s.halt_type = Halt.BREAK then 1 else 0) + breakCount l := by
  by_cases h : s.halt_type = Halt.BREAK <;>
    simp [breakCount, List.filter_cons, h, Nat.add_comm]

lemma driveSum_cons (s : RouteInstruction) (l : List RouteInstruction) :
    driveSum (s :: l) =
      (if s.halt_type = Halt.DRIVE then s.duration else 0) + driveSum l := by
  simp [driveSum]

lemma driveCount_cons (s : RouteInstruction) (l : List RouteInstruction) :
    driveCount (s :: l) =
      (if s.halt_type = Halt.DRIVE then 1 else 0) + driveCount l := by
  by_cases h : s.halt_type = Halt.DRIVE <;>
    simp [driveCount, List.filter_cons, h, Nat.add_comm]

/-! ## Facts about `splitWindows` -/

lemma splitWindows_no_off (l : List RouteInstruction)
    (h : ∀ s ∈ l, s.halt_type ≠ Halt.OFF_DUTY) : splitWindows l = [l] := by
  induction l with
  | nil => rfl
  | cons s t ih =>
    rw [splitWindows, if_neg (h s (List.mem_cons_self s t)),
      ih fun x hx => h x (List.mem_cons_of_mem s hx)]

lemma splitWindows_append_off (xs : List RouteInstruction)
    (a : RouteInstruction) (ys : List RouteInstruction)
    (hxs : ∀ s ∈ xs, s.halt_type ≠ Halt.OFF_DUTY)
    (ha : a.halt_type = Halt.OFF_DUTY) :
    splitWindows (xs ++ a :: ys) = (xs ++ [a]) :: splitWindows ys := by
  induction xs with
  | nil => simp [splitWindows, ha]
  | cons s t ih =>
    rw [List.cons_append, splitWindows,
      if_neg (hxs s (List.mem_cons_self s t)),
      ih fun x hx => hxs x (List.mem_cons_of_mem s hx)]
    rfl

/-! ## Window predicates -/

/-- What holds of the open (not yet closed by a rest) window `w` at a
loop head with state `st`: `w` collects every segment emitted since the
last reset (for the first window, also the pre-trip and pickup
segments). -/
structure OpenWindow (w : List RouteInstruction) (st : SimState) : Prop where
  no_off : ∀ s ∈ w, s.halt_type ≠ Halt.OFF_DUTY
  breaks : breakCount w = if st.has_taken_break then 1 else 0
  sum_nonneg : 0 ≤ driveSum w
  sum_le : (driveSum w : ℚ) ≤ 60 * st.total_driving_time_today
  flag_sum : st.has_taken_break = true → 480 ≤ driveSum w
  seg_le : ∀ s ∈ w, s.halt_type = Halt.DRIVE → s.duration ≤ 480

/-- The verified per-window properties of an emitted schedule. -/
structure WindowOK (w : List RouteInstruction) : Prop where
  breaks_le : breakCount w ≤ 1
  breaks_iff : breakCount w = 1 ↔ 480 ≤ driveSum w
  sum_le : driveSum w ≤ 660
  seg_le : ∀ s ∈ w, s.halt_type = Halt.DRIVE → s.duration ≤ 480

lemma WindowOK_of_open (w : List RouteInstruction) (st : SimState)
    (hI : Inv st) (hw : OpenWindow w st) : WindowOK w := by
  have h11 : st.total_driving_time_today ≤ 11 := hI.tdtt_le
  constructor
  · rcases hb : st.has_taken_break <;> simp [hw.breaks, hb]
  · rcases hb : st.has_taken_break with _ | _
    · have hlt : st.total_driving_time_today < 8 := hI.noflag_tdtt hb
      have : (driveSum w : ℚ) < 480 := lt_of_le_of_lt hw.sum_le (by linarith)
      have hz : driveSum w < 480 := by exact_mod_cast this
      constructor
      · intro hc
        rw [hw.breaks, hb] at hc
        simp at hc
      · intro hc
        omega
    · constructor
      · intro _
        exact hw.flag_sum hb
      · intro _
        rw [hw.breaks, hb]
        rfl
  · have : (driveSum w : ℚ) ≤ 660 := le_trans hw.sum_le (by linarith)
    exact_mod_cast this
  · exact hw.seg_le

lemma OpenWindow_append_inert (w : List RouteInstruction) (st : SimState)
    (suf : List RouteInstruction) (hw : OpenWindow w st)
    (hsuf : ∀ s ∈ suf, s.halt_type ≠ Halt.DRIVE ∧ s.halt_type ≠ Halt.BREAK ∧
      s.halt_type ≠ Halt.OFF_DUTY) :
    OpenWindow (w ++ suf) st := by
  have hbc : breakCount suf = 0 := by
    simp only [breakCount, List.length_eq_zero, List.filter_eq_nil_iff]
    intro s hs
    simp [(hsuf s hs).2.1]
  have hds : driveSum suf = 0 := by
    simp only [driveSum]
    apply List.sum_eq_zero
    intro x hx
    simp only [List.mem_map] at hx
    obtain ⟨s, hs, rfl⟩ := hx
    simp [(hsuf s hs).1]
  constructor
  · intro s hs
    rcases List.mem_append.mp hs with h | h
    · exact hw.no_off s h
    · exact (hsuf s h).2.2
  · rw [breakCount_append, hbc, hw.breaks]
    omega
  · rw [driveSum_append, hds]
    simpa using hw.sum_nonneg
  · rw [driveSum_append, hds]
    simpa using hw.sum_le
  · intro hb
    rw [driveSum_append, hds]
    simpa using hw.flag_sum hb
  · intro s hs hd
    rcases List.mem_append.mp hs with h | h
    · exact hw.seg_le s h hd
    · exact absurd hd (hsuf s h).1

lemma OpenWindow_nil (st : SimState) (hb : st.has_taken_break = false)
    (ht : 0 ≤ st.total_driving_time_today) : OpenWindow [] st := by
  constructor
  · intro s hs
    simp at hs
  · simp [breakCount, hb]
  · simp [driveSum]
  · simp only [driveSum_nil, Int.cast_zero]
    linarith
  · intro h
    rw [hb] at h
    simp at h
  · intro s hs
    simp at hs


/-- Under fresh-window conditions the drivable chunk simplifies to
`min 8 (remaining / 55)`. -/
lemma chunk_fresh (st : SimState) (hb : st.has_taken_break = false)
    (ht : st.total_driving_time_today = 0) (hw : st.on_duty_window ≤ 3) :
    driving_hours_before_break st =
      min MANDATORY_BREAK_THRESHOLD (st.remaining_distance / AVG_SPEED_MPH) := by
  rw [driving_hours_before_break, hb, ht]
  simp only [Bool.false_eq_true, if_false, MANDATORY_BREAK_THRESHOLD,
    MAX_DRIVE_HOURS_PER_DAY, MAX_ON_DUTY_HOURS_PER_DAY]
  have h1 : min (8:ℚ) (11 - 0) = 8 := by norm_num
  have h2 : (8:ℚ) ≤ 14 - st.on_duty_window := by linarith
  rw [h1, ← min_assoc, min_eq_left h2]

lemma breakCount_eq_zero (l : List RouteInstruction)
    (h : ∀ s ∈ l, s.halt_type ≠ Halt.BREAK) : breakCount l = 0 := by
  simp only [breakCount, List.length_eq_zero, List.filter_eq_nil_iff]
  intro s hs
  simp [h s hs]

lemma driveSum_eq_zero (l : List RouteInstruction)
    (h : ∀ s ∈ l, s.halt_type ≠ Halt.DRIVE) : driveSum l = 0 := by
  simp only [driveSum]
  apply List.sum_eq_zero
  intro x hx
  simp only [List.mem_map] at hx
  obtain ⟨s, hs, rfl⟩ := hx
  simp [h s hs]

lemma driveCount_eq_zero (l : List RouteInstruction)
    (h : ∀ s ∈ l, s.halt_type ≠ Halt.DRIVE) : driveCount l = 0 := by
  simp only [driveCount, List.length_eq_zero, List.filter_eq_nil_iff]
  intro s hs
  simp [h s hs]

/-- The fuel phase never touches driving time, the break flag, remaining
distance or the day, moves the on-duty window up by at most half an hour,
and emits only `FUEL` segments. -/
lemma fuel_phase_bounds (dist : ℚ) (o : ℕ → Location) (st : SimState) :
    st.on_duty_window ≤ (fuel_phase dist o st).2.on_duty_window ∧
    (fuel_phase dist o st).2.on_duty_window ≤ st.on_duty_window + 1 / 2 ∧
    (fuel_phase dist o st).2.total_driving_time_today =
      st.total_driving_time_today ∧
    (fuel_phase dist o st).2.has_taken_break = st.has_taken_break ∧
    (fuel_phase dist o st).2.remaining_distance = st.remaining_distance ∧
    (fuel_phase dist o st).2.current_day = st.current_day ∧
    ∀ s ∈ (fuel_phase dist o st).1, s.halt_type = Halt.FUEL := by
  rw [fuel_phase]
  split_ifs <;>
    refine ⟨?_, ?_, rfl, rfl, rfl, rfl, ?_⟩ <;>
    norm_num [FUEL_STOP_DURATION]

/-- The two segments a fired rest phase emits. -/
lemma rest_phase_emits (o : ℕ → Location) (st₃ : SimState)
    (hcond : (st₃.total_driving_time_today ≥ MAX_DRIVE_HOURS_PER_DAY ∨
              st₃.on_duty_window ≥ MAX_ON_DUTY_HOURS_PER_DAY) ∧
             st₃.remaining_distance > EPSILON) :
    ∃ A B, (rest_phase o st₃).1 = [A, B] ∧
      A.halt_type = Halt.SLEEPER ∧ B.halt_type = Halt.OFF_DUTY ∧
      A.day = st₃.current_day ∧ B.day = st₃.current_day := by
  rw [rest_phase_pos o st₃ hcond]
  exact ⟨_, _, rfl, rfl, rfl, rfl, rfl⟩

/-- The state a fired rest phase leaves behind. -/
lemma rest_phase_reset (o : ℕ → Location) (st₃ : SimState)
    (hcond : (st₃.total_driving_time_today ≥ MAX_DRIVE_HOURS_PER_DAY ∨
              st₃.on_duty_window ≥ MAX_ON_DUTY_HOURS_PER_DAY) ∧
             st₃.remaining_distance > EPSILON) :
    (rest_phase o st₃).2.total_driving_time_today = 0 ∧
    (rest_phase o st₃).2.on_duty_window = 0 ∧
    (rest_phase o st₃).2.has_taken_break = false ∧
    (rest_phase o st₃).2.remaining_distance = st₃.remaining_distance ∧
    st₃.current_day ≤ (rest_phase o st₃).2.current_day := by
  rw [rest_phase_pos o st₃ hcond]
  refine ⟨rfl, rfl, rfl, rfl, ?_⟩
  dsimp only
  split <;> omega

/-- The reset state after a fired rest phase starts a fresh window. -/
lemma rest_close (o : ℕ → Location) (st₃ : SimState)
    (w₃ : List RouteInstruction)
    (hno : ∀ s ∈ w₃, s.halt_type ≠ Halt.OFF_DUTY)
    (hbk : breakCount w₃ = 1)
    (hsum₁ : 480 ≤ driveSum w₃)
    (hsum₂ : (driveSum w₃ : ℚ) ≤ 60 * st₃.total_driving_time_today)
    (htd : st₃.total_driving_time_today ≤ 11)
    (hseg : ∀ s ∈ w₃, s.halt_type = Halt.DRIVE → s.duration ≤ 480)
    (hday : 1 ≤ st₃.current_day)
    (hcond : (st₃.total_driving_time_today ≥ MAX_DRIVE_HOURS_PER_DAY ∨
              st₃.on_duty_window ≥ MAX_ON_DUTY_HOURS_PER_DAY) ∧
             st₃.remaining_distance > EPSILON) :
    Inv (rest_phase o st₃).2 ∧
    ∃ xs off_seg,
      w₃ ++ (rest_phase o st₃).1 = xs ++ [off_seg] ∧
      (∀ s ∈ xs, s.halt_type ≠ Halt.OFF_DUTY) ∧
      off_seg.halt_type = Halt.OFF_DUTY ∧
      WindowOK (xs ++ [off_seg]) ∧
      OpenWindow [] (rest_phase o st₃).2 := by
  obtain ⟨A, B, hAB, hA, hB, hAd, hBd⟩ := rest_phase_emits o st₃ hcond
  obtain ⟨hr1, hr2, hr3, hr4, hr5⟩ := rest_phase_reset o st₃ hcond
  have hrm : (0:ℚ) ≤ st₃.remaining_distance :=
    le_of_lt (lt_trans (by norm_num [EPSILON]) hcond.2)
  have hsum660 : driveSum w₃ ≤ 660 := by
    have : (driveSum w₃ : ℚ) ≤ 660 := le_trans hsum₂ (by linarith)
    exact_mod_cast this
  constructor
  · constructor
    · rw [hr4]
      exact hrm
    · rw [hr1]
    · rw [hr1]
      norm_num [MAX_DRIVE_HOURS_PER_DAY]
    · rw [hr2]
    · omega
    · intro hfl
      rw [hr3] at hfl
      simp at hfl
    · intro _
      rw [hr1]
      norm_num [MANDATORY_BREAK_THRESHOLD]
    · intro _ _
      rw [hr1, hr2]
      norm_num
  · refine ⟨w₃ ++ [A], B, ?_, ?_, hB, ?_, ?_⟩
    · rw [hAB, List.append_assoc]
      rfl
    · intro s hs
      rcases List.mem_append.mp hs with h | h
      · exact hno s h
      · simp at h
        rw [h, hA]
        simp
    · have hb2 : breakCount ((w₃ ++ [A]) ++ [B]) = 1 := by
        rw [breakCount_append, breakCount_append, hbk,
          breakCount_cons, breakCount_cons, hA, hB]
        simp [breakCount_nil]
      have hd2 : driveSum ((w₃ ++ [A]) ++ [B]) = driveSum w₃ := by
        rw [driveSum_append, driveSum_append,
          driveSum_cons, driveSum_cons, hA, hB]
        simp [driveSum_nil]
      constructor
      · rw [hb2]
      · rw [hb2, hd2]
        simp [hsum₁]
      · rw [hd2]
        exact hsum660
      · intro s hs hdr
        rcases List.mem_append.mp hs with hs | hs
        · rcases List.mem_append.mp hs with hs | hs
          · exact hseg s hs hdr
          · simp at hs
            rw [hs, hA] at hdr
            simp at hdr
        · simp at hs
          rw [hs, hB] at hdr
          simp at hdr
    · refine OpenWindow_nil _ hr3 ?_
      rw [hr1]

/-- Field equations of a fired drive phase. -/
lemma drive_phase_fields (o : ℕ → Location) (st : SimState)
    (hc : driving_hours_before_break st > 0) :
    (drive_phase o st).2.remaining_distance =
      st.remaining_distance - driving_hours_before_break st * AVG_SPEED_MPH ∧
    (drive_phase o st).2.total_driving_time_today =
      st.total_driving_time_today + driving_hours_before_break st ∧
    (drive_phase o st).2.on_duty_window =
      st.on_duty_window + driving_hours_before_break st ∧
    (drive_phase o st).2.has_taken_break = st.has_taken_break ∧
    (drive_phase o st).2.current_day = st.current_day ∧
    ∃ D, (drive_phase o st).1 = [D] ∧ D.halt_type = Halt.DRIVE ∧
      D.duration = ⌊driving_hours_before_break st * 60⌋ ∧
      D.day = st.current_day := by
  rw [drive_phase_pos o st hc]
  exact ⟨rfl, rfl, rfl, rfl, rfl, _, rfl, rfl, rfl, rfl⟩

/-- Field equations of a fired break phase. -/
lemma break_phase_fields (o : ℕ → Location) (st : SimState)
    (h : ¬ st.has_taken_break ∧
         st.total_driving_time_today ≥ MANDATORY_BREAK_THRESHOLD) :
    (break_phase o st).2.remaining_distance = st.remaining_distance ∧
    (break_phase o st).2.total_driving_time_today =
      st.total_driving_time_today ∧
    (break_phase o st).2.on_duty_window =
      st.on_duty_window + MANDATORY_BREAK_DURATION / 60 ∧
    (break_phase o st).2.has_taken_break = true ∧
    (break_phase o st).2.current_day = st.current_day ∧
    ∃ K, (break_phase o st).1 = [K] ∧ K.halt_type = Halt.BREAK ∧
      K.day = st.current_day := by
  rw [break_phase_pos o st h]
  exact ⟨rfl, rfl, rfl, rfl, rfl, _, rfl, rfl, rfl⟩

lemma sim_step_window (dist : ℚ) (o : ℕ → Location) (st : SimState)
    (w : List RouteInstruction) (hI : Inv st)
    (hrem : EPSILON < st.remaining_distance) (hw : OpenWindow w st) :
    Inv (sim_step dist o st).2 ∧
    (OpenWindow (w ++ (sim_step dist o st).1) (sim_step dist o st).2 ∨
     ∃ xs off_seg,
       w ++ (sim_step dist o st).1 = xs ++ [off_seg] ∧
       (∀ s ∈ xs, s.halt_type ≠ Halt.OFF_DUTY) ∧
       off_seg.halt_type = Halt.OFF_DUTY ∧
       WindowOK (xs ++ [off_seg]) ∧
       OpenWindow [] (sim_step dist o st).2) := by
  obtain ⟨hwno, hwbk, hwnn, hwle, hwfs, hwseg⟩ := hw
  have hrpos : (0:ℚ) < st.remaining_distance :=
    lt_trans (by norm_num [EPSILON]) hrem
  have hstep : sim_step dist o st =
      ((drive_phase o st).1 ++ ((fuel_phase dist o (drive_phase o st).2).1 ++
        ((break_phase o (fuel_phase dist o (drive_phase o st).2).2).1 ++
         (rest_phase o
           (break_phase o (fuel_phase dist o (drive_phase o st).2).2).2).1)),
       (rest_phase o
         (break_phase o (fuel_phase dist o (drive_phase o st).2).2).2).2) := rfl
  rw [hstep]
  dsimp only
  cases hb : st.has_taken_break with
  | false =>
    obtain ⟨ht0, hw3⟩ := hI.noflag_fresh hb hrem
    have hcf := chunk_fresh st hb ht0 hw3
    have hS0 : driveSum w = 0 := by
      have h1 : (driveSum w : ℚ) ≤ 0 := by
        rw [ht0] at hwle
        simpa using hwle
      have h2 : driveSum w ≤ 0 := by exact_mod_cast h1
      omega
    have hB0 : breakCount w = 0 := by
      rw [hb] at hwbk
      simpa using hwbk
    rcases le_or_lt MANDATORY_BREAK_THRESHOLD
      (st.remaining_distance / AVG_SPEED_MPH) with hge | hlt
    · -- full 8-hour chunk: the mandatory break fires, no rest
      have hc : driving_hours_before_break st = 8 := by
        rw [hcf, min_eq_left hge]
        rfl
      have hcpos : driving_hours_before_break st > 0 := by
        rw [hc]
        norm_num
      obtain ⟨hd_rem, hd_tdtt, hd_odw, hd_flag, hd_day, D, hD, hDh, hDdur, hDday⟩ :=
        drive_phase_fields o st hcpos
      have hge8 : (8:ℚ) ≤ st.remaining_distance / 55 := hge
      have hrem440 : (440:ℚ) ≤ st.remaining_distance := by
        have := (le_div_iff₀ (by norm_num : (0:ℚ) < 55)).mp hge8
        linarith
      obtain ⟨hf_ge, hf_le, hf_tdtt, hf_flag, hf_rem, hf_day, hf_mem⟩ :=
        fuel_phase_bounds dist o (drive_phase o st).2
      have hbc : ¬ (fuel_phase dist o (drive_phase o st).2).2.has_taken_break ∧
          (fuel_phase dist o (drive_phase o st).2).2.total_driving_time_today ≥
            MANDATORY_BREAK_THRESHOLD := by
        constructor
        · rw [hf_flag, hd_flag, hb]
          simp
        · rw [hf_tdtt, hd_tdtt, ht0, hc]
          norm_num [MANDATORY_BREAK_THRESHOLD]
      obtain ⟨hk_rem, hk_tdtt, hk_odw, hk_flag, hk_day, K, hK, hKh, hKday⟩ :=
        break_phase_fields o _ hbc
      have hodw1 : (drive_phase o st).2.on_duty_window =
          st.on_duty_window + 8 := by
        rw [hd_odw, hc]
      have hno : ¬ (((break_phase o
            (fuel_phase dist o (drive_phase o st).2).2).2.total_driving_time_today ≥
              MAX_DRIVE_HOURS_PER_DAY ∨
            (break_phase o
              (fuel_phase dist o (drive_phase o st).2).2).2.on_duty_window ≥
              MAX_ON_DUTY_HOURS_PER_DAY) ∧
          (break_phase o
            (fuel_phase dist o (drive_phase o st).2).2).2.remaining_distance >
            EPSILON) := by
        rintro ⟨hcap | hcap, -⟩
        · rw [hk_tdtt, hf_tdtt, hd_tdtt, ht0, hc] at hcap
          norm_num [MAX_DRIVE_HOURS_PER_DAY] at hcap
        · rw [hk_odw] at hcap
          have h1 : (fuel_phase dist o (drive_phase o st).2).2.on_duty_window ≤
              st.on_duty_window + 8 + 1 / 2 := by
            rw [hodw1] at hf_le
            linarith
          have h2 : (MAX_ON_DUTY_HOURS_PER_DAY:ℚ) = 14 := rfl
          have h3 : (MANDATORY_BREAK_DURATION:ℚ) = 30 := rfl
          rw [h2, h3] at hcap
          linarith
      have hre := rest_phase_neg o _ hno
      rw [hre, hD, hK]
      dsimp only
      simp only [List.append_nil]
      have hfl : (⌊(8:ℚ) * 60⌋ : ℤ) = 480 := by norm_num
      have hDdur' : D.duration = 480 := by
        rw [hDdur, hc, hfl]
      have hbD : breakCount [D] = 0 := by
        simp [breakCount_cons, breakCount_nil, hDh]
      have hbK : breakCount [K] = 1 := by
        simp [breakCount_cons, breakCount_nil, hKh]
      have hbl2 : breakCount (fuel_phase dist o (drive_phase o st).2).1 = 0 :=
        breakCount_eq_zero _ (fun s hs => by simp [hf_mem s hs])
      have hsD : driveSum [D] = 480 := by
        simp [driveSum_cons, driveSum_nil, hDh, hDdur']
      have hsK : driveSum [K] = 0 := by
        simp [driveSum_cons, driveSum_nil, hKh]
      have hsl2 : driveSum (fuel_phase dist o (drive_phase o st).2).1 = 0 :=
        driveSum_eq_zero _ (fun s hs => by simp [hf_mem s hs])
      constructor
      · constructor
        · rw [hk_rem, hf_rem, hd_rem, hc]
          have : (AVG_SPEED_MPH:ℚ) = 55 := rfl
          rw [this]
          linarith
        · rw [hk_tdtt, hf_tdtt, hd_tdtt, ht0, hc]
          norm_num
        · rw [hk_tdtt, hf_tdtt, hd_tdtt, ht0, hc]
          norm_num [MAX_DRIVE_HOURS_PER_DAY]
        · rw [hk_odw]
          have h3 : (MANDATORY_BREAK_DURATION:ℚ) = 30 := rfl
          rw [h3, hodw1] at *
          have := hI.odw_nonneg
          linarith
        · rw [hk_day, hf_day, hd_day]
          exact hI.day_pos
        · intro _
          rw [hk_tdtt, hf_tdtt, hd_tdtt, ht0, hc]
          norm_num [MANDATORY_BREAK_THRESHOLD]
        · intro hfl2
          rw [hk_flag] at hfl2
          simp at hfl2
        · intro hfl2
          rw [hk_flag] at hfl2
          simp at hfl2
      · left
        constructor
        · intro s hs
          simp only [List.mem_append, List.mem_singleton] at hs
          rcases hs with h | h | h | h
          · exact hwno s h
          · simp [h, hDh]
          · simp [hf_mem s h]
          · simp [h, hKh]
        · rw [hk_flag, breakCount_append, breakCount_append, breakCount_append,
            hB0, hbD, hbl2, hbK]
          simp
        · rw [driveSum_append, driveSum_append, driveSum_append,
            hS0, hsD, hsl2, hsK]
          norm_num
        · rw [driveSum_append, driveSum_append, driveSum_append,
            hS0, hsD, hsl2, hsK, hk_tdtt, hf_tdtt, hd_tdtt, ht0, hc]
          norm_num
        · intro _
          rw [driveSum_append, driveSum_append, driveSum_append,
            hS0, hsD, hsl2, hsK]
          norm_num
        · intro s hs hdr
          simp only [List.mem_append, List.mem_singleton] at hs
          rcases hs with h | h | h | h
          · exact hwseg s h hdr
          · rw [h, hDdur']
          · rw [hf_mem s h] at hdr
            simp at hdr
          · rw [h, hKh] at hdr
            simp at hdr
    · -- final partial chunk: remaining distance drops to exactly zero
      have hc : driving_hours_before_break st =
          st.remaining_distance / AVG_SPEED_MPH := by
        rw [hcf, min_eq_right (le_of_lt hlt)]
      have h55 : (AVG_SPEED_MPH:ℚ) = 55 := rfl
      have hmd : (MAX_DRIVE_HOURS_PER_DAY:ℚ) = 11 := rfl
      have hmb : (MANDATORY_BREAK_THRESHOLD:ℚ) = 8 := rfl
      have hlt8 : st.remaining_distance / 55 < 8 := by
        rw [← h55, ← hmb]
        exact hlt
      have hcpos : driving_hours_before_break st > 0 := by
        rw [hc, h55]
        positivity
      obtain ⟨hd_rem, hd_tdtt, hd_odw, hd_flag, hd_day, D, hD, hDh, hDdur, hDday⟩ :=
        drive_phase_fields o st hcpos
      have hrem0 : (drive_phase o st).2.remaining_distance = 0 := by
        rw [hd_rem, hc, h55]
        field_simp
      obtain ⟨hf_ge, hf_le, hf_tdtt, hf_flag, hf_rem, hf_day, hf_mem⟩ :=
        fuel_phase_bounds dist o (drive_phase o st).2
      have hbc : ¬ (¬ (fuel_phase dist o (drive_phase o st).2).2.has_taken_break ∧
          (fuel_phase dist o (drive_phase o st).2).2.total_driving_time_today ≥
            MANDATORY_BREAK_THRESHOLD) := by
        rintro ⟨-, habs⟩
        rw [hf_tdtt, hd_tdtt, ht0, hc, h55, hmb] at habs
        linarith
      have hke := break_phase_neg o _ hbc
      have hno : ¬ (((break_phase o
            (fuel_phase dist o (drive_phase o st).2).2).2.total_driving_time_today ≥
              MAX_DRIVE_HOURS_PER_DAY ∨
            (break_phase o
              (fuel_phase dist o (drive_phase o st).2).2).2.on_duty_window ≥
              MAX_ON_DUTY_HOURS_PER_DAY) ∧
          (break_phase o
            (fuel_phase dist o (drive_phase o st).2).2).2.remaining_distance >
            EPSILON) := by
        rintro ⟨-, habs⟩
        rw [hke] at habs
        dsimp only at habs
        rw [hf_rem, hrem0] at habs
        norm_num [EPSILON] at habs
      have hre := rest_phase_neg o _ hno
      rw [hre]
      dsimp only
      rw [hke]
      dsimp only
      rw [hD]
      simp only [List.append_nil, List.nil_append]
      have hsD : driveSum [D] = D.duration := by
        simp [driveSum_cons, driveSum_nil, hDh]
      have hbD : breakCount [D] = 0 := by
        simp [breakCount_cons, breakCount_nil, hDh]
      have hbl2 : breakCount (fuel_phase dist o (drive_phase o st).2).1 = 0 :=
        breakCount_eq_zero _ (fun s hs => by simp [hf_mem s hs])
      have hsl2 : driveSum (fuel_phase dist o (drive_phase o st).2).1 = 0 :=
        driveSum_eq_zero _ (fun s hs => by simp [hf_mem s hs])
      have hDle : (D.duration : ℚ) ≤ driving_hours_before_break st * 60 := by
        rw [hDdur]
        exact_mod_cast Int.floor_le _
      have hDnn : 0 ≤ D.duration := by
        rw [hDdur]
        exact Int.floor_nonneg.mpr (mul_nonneg (le_of_lt hcpos) (by norm_num))
      have hD480 : D.duration ≤ 480 := by
        have h1 : (D.duration : ℚ) < 480 := by
          have h2 : driving_hours_before_break st * 60 < 480 := by
            rw [hc, h55]
            linarith
          linarith
        exact_mod_cast le_of_lt h1
      constructor
      · constructor
        · rw [hf_rem, hrem0]
        · rw [hf_tdtt, hd_tdtt, ht0, hc, h55]
          positivity
        · rw [hf_tdtt, hd_tdtt, ht0, hc, h55, hmd]
          linarith
        · rw [hd_odw] at hf_ge
          have := hI.odw_nonneg
          linarith [le_of_lt hcpos]
        · rw [hf_day, hd_day]
          exact hI.day_pos
        · intro hfl
          rw [hf_flag, hd_flag, hb] at hfl
          simp at hfl
        · intro _
          rw [hf_tdtt, hd_tdtt, ht0, hc, h55, hmb]
          linarith
        · intro _ habs
          rw [hf_rem, hrem0] at habs
          norm_num [EPSILON] at habs
      · left
        constructor
        · intro s hs
          simp only [List.mem_append, List.mem_singleton] at hs
          rcases hs with h | h | h
          · exact hwno s h
          · simp [h, hDh]
          · simp [hf_mem s h]
        · rw [hf_flag, hd_flag, hb, breakCount_append, breakCount_append,
            hB0, hbD, hbl2]
          simp
        · rw [driveSum_append, driveSum_append, hS0, hsD, hsl2]
          omega
        · rw [driveSum_append, driveSum_append, hS0, hsD, hsl2,
            hf_tdtt, hd_tdtt, ht0]
          push_cast
          linarith
        · intro hfl
          rw [hf_flag, hd_flag, hb] at hfl
          simp at hfl
        · intro s hs hdr
          simp only [List.mem_append, List.mem_singleton] at hs
          rcases hs with h | h | h
          · exact hwseg s h hdr
          · rw [h]
            exact hD480
          · rw [hf_mem s h] at hdr
            simp at hdr
  | true =>
    have ht8 : MANDATORY_BREAK_THRESHOLD ≤ st.total_driving_time_today :=
      hI.flag_tdtt hb
    have hmb : (MANDATORY_BREAK_THRESHOLD:ℚ) = 8 := rfl
    have hmd : (MAX_DRIVE_HOURS_PER_DAY:ℚ) = 11 := rfl
    have hmw : (MAX_ON_DUTY_HOURS_PER_DAY:ℚ) = 14 := rfl
    have h55 : (AVG_SPEED_MPH:ℚ) = 55 := rfl
    have hB1 : breakCount w = 1 := by
      rw [hb] at hwbk
      simpa using hwbk
    have hS480 : 480 ≤ driveSum w := hwfs hb
    have ht11 : st.total_driving_time_today ≤ MAX_DRIVE_HOURS_PER_DAY :=
      hI.tdtt_le
    by_cases hcpos : driving_hours_before_break st > 0
    · -- a (at most 3-hour) chunk is driven
      obtain ⟨hd_rem, hd_tdtt, hd_odw, hd_flag, hd_day, D, hD, hDh, hDdur, hDday⟩ :=
        drive_phase_fields o st hcpos
      have hcle : driving_hours_before_break st ≤
          MAX_DRIVE_HOURS_PER_DAY - st.total_driving_time_today :=
        chunk_le_daily_cap st
      have hcrem : driving_hours_before_break st ≤
          st.remaining_distance / AVG_SPEED_MPH := chunk_le_remaining st
      have hrem1 : 0 ≤ (drive_phase o st).2.remaining_distance := by
        rw [hd_rem, h55]
        have h1 : driving_hours_before_break st * 55 ≤ st.remaining_distance := by
          rw [h55] at hcrem
          exact (le_div_iff₀ (by norm_num)).mp hcrem
        linarith
      obtain ⟨hf_ge, hf_le, hf_tdtt, hf_flag, hf_rem, hf_day, hf_mem⟩ :=
        fuel_phase_bounds dist o (drive_phase o st).2
      have hbc : ¬ (¬ (fuel_phase dist o (drive_phase o st).2).2.has_taken_break ∧
          (fuel_phase dist o (drive_phase o st).2).2.total_driving_time_today ≥
            MANDATORY_BREAK_THRESHOLD) := by
        rintro ⟨habs, -⟩
        rw [hf_flag, hd_flag, hb] at habs
        simp at habs
      have hke := break_phase_neg o _ hbc
      have hsD : driveSum [D] = D.duration := by
        simp [driveSum_cons, driveSum_nil, hDh]
      have hbD : breakCount [D] = 0 := by
        simp [breakCount_cons, breakCount_nil, hDh]
      have hbl2 : breakCount (fuel_phase dist o (drive_phase o st).2).1 = 0 :=
        breakCount_eq_zero _ (fun s hs => by simp [hf_mem s hs])
      have hsl2 : driveSum (fuel_phase dist o (drive_phase o st).2).1 = 0 :=
        driveSum_eq_zero _ (fun s hs => by simp [hf_mem s hs])
      have hDle : (D.duration : ℚ) ≤ driving_hours_before_break st * 60 := by
        rw [hDdur]
        exact_mod_cast Int.floor_le _
      have hDnn : 0 ≤ D.duration := by
        rw [hDdur]
        exact Int.floor_nonneg.mpr (mul_nonneg (le_of_lt hcpos) (by norm_num))
      have hc3 : driving_hours_before_break st ≤ 3 := by
        rw [hmd] at hcle
        rw [hmb] at ht8
        linarith
      have hD480 : D.duration ≤ 480 := by
        have h1 : (D.duration:ℚ) ≤ 480 := le_trans hDle (by linarith)
        exact_mod_cast h1
      rw [hke]
      dsimp only
      rw [hD]
      simp only [List.nil_append]
      by_cases hrc : ((fuel_phase dist o
            (drive_phase o st).2).2.total_driving_time_today ≥
            MAX_DRIVE_HOURS_PER_DAY ∨
          (fuel_phase dist o (drive_phase o st).2).2.on_duty_window ≥
            MAX_ON_DUTY_HOURS_PER_DAY) ∧
          (fuel_phase dist o (drive_phase o st).2).2.remaining_distance >
            EPSILON
      · -- daily or window cap exhausted: the rest closes the window
        obtain ⟨hInv4, xs, offs, hxeq, hxno, hoff, hwOK, hopen⟩ :=
          rest_close o _
            (w ++ ([D] ++ (fuel_phase dist o (drive_phase o st).2).1))
            (by
              intro s hs
              simp only [List.mem_append, List.mem_singleton] at hs
              rcases hs with h | h | h
              · exact hwno s h
              · simp [h, hDh]
              · simp [hf_mem s h])
            (by
              rw [breakCount_append, breakCount_append, hB1, hbD, hbl2])
            (by
              rw [driveSum_append, driveSum_append, hsD, hsl2]
              omega)
            (by
              rw [driveSum_append, driveSum_append, hsD, hsl2,
                hf_tdtt, hd_tdtt]
              push_cast
              linarith)
            (by
              rw [hf_tdtt, hd_tdtt]
              rw [hmd] at hcle ht11
              linarith)
            (by
              intro s hs hdr
              simp only [List.mem_append, List.mem_singleton] at hs
              rcases hs with h | h | h
              · exact hwseg s h hdr
              · rw [h]
                exact hD480
              · rw [hf_mem s h] at hdr
                simp at hdr)
            (by
              rw [hf_day, hd_day]
              exact hI.day_pos)
            hrc
        refine ⟨hInv4, Or.inr ⟨xs, offs, ?_, hxno, hoff, hwOK, hopen⟩⟩
        rw [← hxeq]
        simp [List.append_assoc]
      · have hre := rest_phase_neg o _ hrc
        rw [hre]
        dsimp only
        simp only [List.append_nil]
        constructor
        · constructor
          · rw [hf_rem]
            exact hrem1
          · rw [hf_tdtt, hd_tdtt]
            have := hI.tdtt_nonneg
            linarith [le_of_lt hcpos]
          · rw [hf_tdtt, hd_tdtt, hmd]
            rw [hmd] at hcle
            linarith
          · rw [hd_odw] at hf_ge
            have := hI.odw_nonneg
            linarith [le_of_lt hcpos]
          · rw [hf_day, hd_day]
            exact hI.day_pos
          · intro _
            rw [hf_tdtt, hd_tdtt, hmb]
            rw [hmb] at ht8
            linarith [le_of_lt hcpos]
          · intro hfl
            rw [hf_flag, hd_flag, hb] at hfl
            simp at hfl
          · intro hfl
            rw [hf_flag, hd_flag, hb] at hfl
            simp at hfl
        · left
          constructor
          · intro s hs
            simp only [List.mem_append, List.mem_singleton] at hs
            rcases hs with h | h | h
            · exact hwno s h
            · simp [h, hDh]
            · simp [hf_mem s h]
          · rw [hf_flag, hd_flag, hb, breakCount_append, breakCount_append,
              hB1, hbD, hbl2]
            simp
          · rw [driveSum_append, driveSum_append, hsD, hsl2]
            omega
          · rw [driveSum_append, driveSum_append, hsD, hsl2,
              hf_tdtt, hd_tdtt]
            push_cast
            linarith
          · intro _
            rw [driveSum_append, driveSum_append, hsD, hsl2]
            omega
          · intro s hs hdr
            simp only [List.mem_append, List.mem_singleton] at hs
            rcases hs with h | h | h
            · exact hwseg s h hdr
            · rw [h]
              exact hD480
            · rw [hf_mem s h] at hdr
              simp at hdr
    · -- no drivable chunk: a cap is already exhausted, the rest fires
      have hdr := drive_phase_neg o st hcpos
      rw [hdr]
      dsimp only
      obtain ⟨hf_ge, hf_le, hf_tdtt, hf_flag, hf_rem, hf_day, hf_mem⟩ :=
        fuel_phase_bounds dist o st
      have hbc : ¬ (¬ (fuel_phase dist o st).2.has_taken_break ∧
          (fuel_phase dist o st).2.total_driving_time_today ≥
            MANDATORY_BREAK_THRESHOLD) := by
        rintro ⟨habs, -⟩
        rw [hf_flag, hb] at habs
        simp at habs
      have hke := break_phase_neg o _ hbc
      rw [hke]
      dsimp only
      simp only [List.nil_append]
      have hc0 : driving_hours_before_break st ≤ 0 := le_of_not_lt hcpos
      have hkey : st.total_driving_time_today ≥ 11 ∨ st.on_duty_window ≥ 14 := by
        rw [driving_hours_before_break, hb] at hc0
        simp only [if_true] at hc0
        rcases min_le_iff.mp hc0 with h | h
        · rcases min_le_iff.mp h with h1 | h1
          · rw [hmd] at h1
            norm_num at h1
          · left
            rw [hmd] at h1
            linarith
        · rcases min_le_iff.mp h with h1 | h1
          · right
            rw [hmw] at h1
            linarith
          · exfalso
            rw [h55] at h1
            have hp : (0:ℚ) < st.remaining_distance / 55 :=
              div_pos hrpos (by norm_num)
            linarith
      have hrc : ((fuel_phase dist o st).2.total_driving_time_today ≥
            MAX_DRIVE_HOURS_PER_DAY ∨
          (fuel_phase dist o st).2.on_duty_window ≥
            MAX_ON_DUTY_HOURS_PER_DAY) ∧
          (fuel_phase dist o st).2.remaining_distance > EPSILON := by
        constructor
        · rcases hkey with h | h
          · left
            rw [hf_tdtt, hmd]
            exact h
          · right
            rw [hmw]
            linarith
        · rw [hf_rem]
          exact hrem
      have hbl2 : breakCount (fuel_phase dist o st).1 = 0 :=
        breakCount_eq_zero _ (fun s hs => by simp [hf_mem s hs])
      have hsl2 : driveSum (fuel_phase dist o st).1 = 0 :=
        driveSum_eq_zero _ (fun s hs => by simp [hf_mem s hs])
      obtain ⟨hInv4, xs, offs, hxeq, hxno, hoff, hwOK, hopen⟩ :=
        rest_close o _ (w ++ (fuel_phase dist o st).1)
          (by
            intro s hs
            rcases List.mem_append.mp hs with h | h
            · exact hwno s h
            · simp [hf_mem s h])
          (by
            rw [breakCount_append, hB1, hbl2])
          (by
            rw [driveSum_append, hsl2]
            omega)
          (by
            rw [driveSum_append, hsl2, hf_tdtt]
            push_cast
            linarith)
          (by
            rw [hf_tdtt]
            rw [hmd] at ht11
            linarith)
          (by
            intro s hs hdr
            rcases List.mem_append.mp hs with h | h
            · exact hwseg s h hdr
            · rw [hf_mem s h] at hdr
              simp at hdr)
          (by
            rw [hf_day]
            exact hI.day_pos)
          hrc
      refine ⟨hInv4, Or.inr ⟨xs, offs, ?_, hxno, hoff, hwOK, hopen⟩⟩
      rw [← hxeq]
      simp [List.append_assoc]

/-- Every window of the segments emitted by the main loop (prefixed by
the open-window segments `w` and followed by inert trailing segments
`suf`) satisfies the per-window properties. -/
lemma sim_loop_windows (dist : ℚ) (o : ℕ → Location)
    (suf : List RouteInstruction)
    (hsuf : ∀ s ∈ suf, s.halt_type ≠ Halt.DRIVE ∧ s.halt_type ≠ Halt.BREAK ∧
      s.halt_type ≠ Halt.OFF_DUTY) :
    ∀ (fuel : ℕ) (st : SimState) (w : List RouteInstruction)
      (out : List RouteInstruction × SimState),
      Inv st → OpenWindow w st →
      sim_loop dist o fuel st = some out →
      ∀ win ∈ splitWindows (w ++ out.1 ++ suf), WindowOK win := by
  intro fuel
  induction fuel with
  | zero =>
    intro st w out hI hw hloop
    rw [sim_loop] at hloop
    split_ifs at hloop with hc
    obtain rfl : ([], st) = out := Option.some.inj hloop
    intro win hwin
    have hsp : splitWindows (w ++ ([], st).1 ++ suf) = [w ++ suf] := by
      simp only [List.append_nil]
      exact splitWindows_no_off _ (by
        intro s hs
        rcases List.mem_append.mp hs with h | h
        · exact hw.no_off s h
        · exact (hsuf s h).2.2)
    rw [hsp] at hwin
    simp only [List.mem_singleton] at hwin
    subst hwin
    exact WindowOK_of_open _ st hI (OpenWindow_append_inert w st suf hw hsuf)
  | succ n ih =>
    intro st w out hI hw hloop
    rw [sim_loop] at hloop
    split_ifs at hloop with hc
    · simp only [Option.map_eq_some'] at hloop
      obtain ⟨rest, hrest, hout⟩ := hloop
      subst hout
      obtain ⟨hInv2, hcase⟩ := sim_step_window dist o st w hI hc hw
      rcases hcase with hopen | ⟨xs, offs, hxeq, hxno, hoff, hwOK, hopen⟩
      · intro win hwin
        apply ih (sim_step dist o st).2 (w ++ (sim_step dist o st).1) rest
          hInv2 hopen hrest
        simpa [List.append_assoc] using hwin
      · intro win hwin
        have hlist : w ++ ((sim_step dist o st).1 ++ rest.1, rest.2).1 ++ suf =
            xs ++ offs :: (rest.1 ++ suf) := by
          have h1 : w ++ ((sim_step dist o st).1 ++ rest.1) =
              (w ++ (sim_step dist o st).1) ++ rest.1 :=
            (List.append_assoc _ _ _).symm
          calc w ++ ((sim_step dist o st).1 ++ rest.1) ++ suf
              = ((w ++ (sim_step dist o st).1) ++ rest.1) ++ suf := by rw [h1]
            _ = (xs ++ [offs]) ++ rest.1 ++ suf := by rw [hxeq]
            _ = xs ++ offs :: (rest.1 ++ suf) := by
                simp [List.append_assoc]
        rw [hlist, splitWindows_append_off xs offs _ hxno hoff] at hwin
        rcases List.mem_cons.mp hwin with rfl | hwin2
        · exact hwOK
        · have := ih (sim_step dist o st).2 [] rest hInv2 hopen hrest
          apply this
          simpa using hwin2
    · obtain rfl : ([], st) = out := Option.some.inj hloop
      intro win hwin
      have hsp : splitWindows (w ++ ([], st).1 ++ suf) = [w ++ suf] := by
        simp only [List.append_nil]
        exact splitWindows_no_off _ (by
          intro s hs
          rcases List.mem_append.mp hs with h | h
          · exact hw.no_off s h
          · exact (hsuf s h).2.2)
      rw [hsp] at hwin
      simp only [List.mem_singleton] at hwin
      subst hwin
      exact WindowOK_of_open _ st hI (OpenWindow_append_inert w st suf hw hsuf)

/-! ## Distance bookkeeping: the `DRIVE` durations account for the
distance consumed, up to one minute of `int()` truncation per segment -/

lemma break_phase_inert (o : ℕ → Location) (st : SimState) :
    (break_phase o st).2.remaining_distance = st.remaining_distance ∧
    (break_phase o st).2.current_day = st.current_day ∧
    ∀ s ∈ (break_phase o st).1, s.halt_type = Halt.BREAK ∧
      s.day = st.current_day := by
  rw [break_phase]
  split_ifs <;> simp

lemma rest_phase_inert (o : ℕ → Location) (st : SimState) :
    (rest_phase o st).2.remaining_distance = st.remaining_distance ∧
    ∀ s ∈ (rest_phase o st).1, s.halt_type ≠ Halt.DRIVE := by
  rw [rest_phase]
  split_ifs <;> simp

lemma driveCount_nil : driveCount [] = 0 := rfl

lemma drive_phase_sum (o : ℕ → Location) (st : SimState) :
    ((driveSum (drive_phase o st).1 : ℚ) ≤
      60 * (st.remaining_distance - (drive_phase o st).2.remaining_distance) / 55) ∧
    (60 * (st.remaining_distance - (drive_phase o st).2.remaining_distance) / 55 ≤
      (driveSum (drive_phase o st).1 : ℚ) + driveCount (drive_phase o st).1) ∧
    ((drive_phase o st).2.remaining_distance ≤ st.remaining_distance) ∧
    (0 ≤ st.remaining_distance → 0 ≤ (drive_phase o st).2.remaining_distance) := by
  have h55 : (AVG_SPEED_MPH:ℚ) = 55 := rfl
  by_cases hc : driving_hours_before_break st > 0
  · have hcrem : driving_hours_before_break st ≤
        st.remaining_distance / AVG_SPEED_MPH := chunk_le_remaining st
    rw [h55] at hcrem
    have h1 : driving_hours_before_break st * 55 ≤ st.remaining_distance :=
      (le_div_iff₀ (by norm_num)).mp hcrem
    rw [drive_phase_pos o st hc]
    dsimp only
    rw [h55]
    have hfl : (⌊driving_hours_before_break st * 60⌋ : ℚ) ≤
        driving_hours_before_break st * 60 := Int.floor_le _
    have hfl2 : driving_hours_before_break st * 60 <
        (⌊driving_hours_before_break st * 60⌋ : ℚ) + 1 :=
      Int.lt_floor_add_one _
    have hkey : 60 * (st.remaining_distance -
        (st.remaining_distance - driving_hours_before_break st * 55)) / 55 =
        driving_hours_before_break st * 60 := by
      ring
    refine ⟨?_, ?_, ?_, ?_⟩
    · simp only [driveSum_cons, driveSum_nil]
      rw [hkey]
      simpa using hfl
    · simp only [driveSum_cons, driveSum_nil, driveCount_cons, driveCount_nil]
      rw [hkey]
      push_cast
      norm_num
      linarith
    · nlinarith
    · intro _
      linarith
  · rw [drive_phase_neg o st hc]
    dsimp only
    refine ⟨?_, ?_, le_refl _, fun h => h⟩
    · simp [driveSum_nil]
    · simp [driveSum_nil, driveCount_nil]

lemma sim_step_sum (dist : ℚ) (o : ℕ → Location) (st : SimState) :
    ((driveSum (sim_step dist o st).1 : ℚ) ≤
      60 * (st.remaining_distance - (sim_step dist o st).2.remaining_distance) / 55) ∧
    (60 * (st.remaining_distance - (sim_step dist o st).2.remaining_distance) / 55 ≤
      (driveSum (sim_step dist o st).1 : ℚ) + driveCount (sim_step dist o st).1) ∧
    ((sim_step dist o st).2.remaining_distance ≤ st.remaining_distance) ∧
    (0 ≤ st.remaining_distance → 0 ≤ (sim_step dist o st).2.remaining_distance) := by
  have hstep : sim_step dist o st =
      ((drive_phase o st).1 ++ ((fuel_phase dist o (drive_phase o st).2).1 ++
        ((break_phase o (fuel_phase dist o (drive_phase o st).2).2).1 ++
         (rest_phase o
           (break_phase o (fuel_phase dist o (drive_phase o st).2).2).2).1)),
       (rest_phase o
         (break_phase o (fuel_phase dist o (drive_phase o st).2).2).2).2) := rfl
  rw [hstep]
  dsimp only
  obtain ⟨hd1, hd2, hd3, hd4⟩ := drive_phase_sum o st
  obtain ⟨-, -, -, -, hf_rem, -, hf_mem⟩ :=
    fuel_phase_bounds dist o (drive_phase o st).2
  obtain ⟨hk_rem, -, hk_mem⟩ :=
    break_phase_inert o (fuel_phase dist o (drive_phase o st).2).2
  obtain ⟨hr_rem, hr_mem⟩ :=
    rest_phase_inert o
      (break_phase o (fuel_phase dist o (drive_phase o st).2).2).2
  have hsf : driveSum (fuel_phase dist o (drive_phase o st).2).1 = 0 :=
    driveSum_eq_zero _ (fun s hs => by simp [hf_mem s hs])
  have hsk : driveSum
      (break_phase o (fuel_phase dist o (drive_phase o st).2).2).1 = 0 :=
    driveSum_eq_zero _ (fun s hs => by simp [(hk_mem s hs).1])
  have hsr : driveSum
      (rest_phase o
        (break_phase o (fuel_phase dist o (drive_phase o st).2).2).2).1 = 0 :=
    driveSum_eq_zero _ hr_mem
  have hcf : driveCount (fuel_phase dist o (drive_phase o st).2).1 = 0 :=
    driveCount_eq_zero _ (fun s hs => by simp [hf_mem s hs])
  have hck : driveCount
      (break_phase o (fuel_phase dist o (drive_phase o st).2).2).1 = 0 :=
    driveCount_eq_zero _ (fun s hs => by simp [(hk_mem s hs).1])
  have hcr : driveCount
      (rest_phase o
        (break_phase o (fuel_phase dist o (drive_phase o st).2).2).2).1 = 0 :=
    driveCount_eq_zero _ hr_mem
  rw [hr_rem, hk_rem, hf_rem]
  rw [driveSum_append, driveSum_append, driveSum_append, hsf, hsk, hsr,
    driveCount_append, driveCount_append, driveCount_append, hcf, hck, hcr]
  push_cast
  refine ⟨by linarith, by linarith, hd3, hd4⟩

lemma sim_loop_sum (dist : ℚ) (o : ℕ → Location) :
    ∀ (fuel : ℕ) (st : SimState) (out : List RouteInstruction × SimState),
      sim_loop dist o fuel st = some out →
      ((driveSum out.1 : ℚ) ≤
        60 * (st.remaining_distance - out.2.remaining_distance) / 55) ∧
      (60 * (st.remaining_distance - out.2.remaining_distance) / 55 ≤
        (driveSum out.1 : ℚ) + driveCount out.1) ∧
      ¬ out.2.remaining_distance > EPSILON ∧
      (0 ≤ st.remaining_distance → 0 ≤ out.2.remaining_distance) := by
  intro fuel
  induction fuel with
  | zero =>
    intro st out hloop
    rw [sim_loop] at hloop
    split_ifs at hloop with hc
    obtain rfl : ([], st) = out := Option.some.inj hloop
    refine ⟨by simp [driveSum_nil], by simp [driveSum_nil, driveCount], hc,
      fun h => h⟩
  | succ n ih =>
    intro st out hloop
    rw [sim_loop] at hloop
    split_ifs at hloop with hc
    · simp only [Option.map_eq_some'] at hloop
      obtain ⟨rest, hrest, hout⟩ := hloop
      subst hout
      obtain ⟨h1, h2, h3, h4⟩ := sim_step_sum dist o st
      obtain ⟨g1, g2, g3, g4⟩ := ih (sim_step dist o st).2 rest hrest
      dsimp only
      rw [driveSum_append, driveCount_append]
      push_cast
      refine ⟨by linarith, by linarith, g3, fun h => g4 (h4 h)⟩
    · obtain rfl : ([], st) = out := Option.some.inj hloop
      refine ⟨by simp [driveSum_nil], by simp [driveSum_nil, driveCount], hc,
        fun h => h⟩

/-! ## Day-index bookkeeping -/

/-- The relation holding between two consecutive segments of an emitted
schedule: the day never decreases, increases by at most one, and
increases only across the `OFF_DUTY` tail of a 10-hour rest. -/
def dayRel (a b : RouteInstruction) : Prop :=
  a.day ≤ b.day ∧ b.day ≤ a.day + 1 ∧
    (a.day < b.day → a.halt_type = Halt.OFF_DUTY)

lemma chain_const_day (l : List RouteInstruction) (k : ℕ)
    (h : ∀ s ∈ l, s.day = k) : List.Chain' dayRel l := by
  induction l with
  | nil => exact List.chain'_nil
  | cons a t ih =>
    cases t with
    | nil => exact List.chain'_singleton a
    | cons b t2 =>
      refine List.Chain'.cons ?_ (ih fun s hs => h s (List.mem_cons_of_mem a hs))
      have ha : a.day = k := h a (List.mem_cons_self _ _)
      have hb : b.day = k := h b (List.mem_cons_of_mem a (List.mem_cons_self _ _))
      exact ⟨by omega, by omega, fun hlt => by omega⟩

lemma drive_phase_day (o : ℕ → Location) (st : SimState) :
    (drive_phase o st).2.current_day = st.current_day ∧
    ∀ s ∈ (drive_phase o st).1, s.day = st.current_day := by
  rw [drive_phase]
  split_ifs <;> simp

lemma fuel_phase_day_mem (dist : ℚ) (o : ℕ → Location) (st : SimState) :
    ∀ s ∈ (fuel_phase dist o st).1, s.day = st.current_day := by
  rw [fuel_phase]
  split_ifs <;> simp

lemma rest_phase_day (o : ℕ → Location) (st : SimState) :
    ((rest_phase o st).1 = [] ∧
      (rest_phase o st).2.current_day = st.current_day) ∨
    (∃ A B, (rest_phase o st).1 = [A, B] ∧
      B.halt_type = Halt.OFF_DUTY ∧ A.day = st.current_day ∧
      B.day = st.current_day ∧
      ((rest_phase o st).2.current_day = st.current_day ∨
       (rest_phase o st).2.current_day = st.current_day + 1)) := by
  rw [rest_phase]
  split_ifs with h
  · right
    refine ⟨_, _, rfl, rfl, rfl, rfl, ?_⟩
    dsimp only
    split_ifs <;> simp
  · left
    exact ⟨rfl, rfl⟩

lemma sim_step_day (dist : ℚ) (o : ℕ → Location) (st : SimState) :
    (∀ s ∈ (sim_step dist o st).1, s.day = st.current_day) ∧
    st.current_day ≤ (sim_step dist o st).2.current_day ∧
    (sim_step dist o st).2.current_day ≤ st.current_day + 1 ∧
    ((sim_step dist o st).2.current_day = st.current_day + 1 →
      ∃ ys B, (sim_step dist o st).1 = ys ++ [B] ∧
        B.halt_type = Halt.OFF_DUTY ∧ B.day = st.current_day) := by
  have hstep : sim_step dist o st =
      ((drive_phase o st).1 ++ ((fuel_phase dist o (drive_phase o st).2).1 ++
        ((break_phase o (fuel_phase dist o (drive_phase o st).2).2).1 ++
         (rest_phase o
           (break_phase o (fuel_phase dist o (drive_phase o st).2).2).2).1)),
       (rest_phase o
         (break_phase o (fuel_phase dist o (drive_phase o st).2).2).2).2) := rfl
  rw [hstep]
  dsimp only
  obtain ⟨hd_day, hd_mem⟩ := drive_phase_day o st
  obtain ⟨-, -, -, -, -, hf_day, -⟩ :=
    fuel_phase_bounds dist o (drive_phase o st).2
  have hf_mem := fuel_phase_day_mem dist o (drive_phase o st).2
  obtain ⟨-, hk_day, hk_mem⟩ :=
    break_phase_inert o (fuel_phase dist o (drive_phase o st).2).2
  have hday2 : (break_phase o
      (fuel_phase dist o (drive_phase o st).2).2).2.current_day =
      st.current_day := by
    rw [hk_day, hf_day, hd_day]
  rcases rest_phase_day o
      (break_phase o (fuel_phase dist o (drive_phase o st).2).2).2 with
    ⟨hr_nil, hr_day⟩ | ⟨A, B, hr_eq, hB, hAd, hBd, hr_day⟩
  · rw [hr_nil, hr_day, hday2]
    refine ⟨?_, le_refl _, by omega, by omega⟩
    intro s hs
    simp only [List.append_nil, List.mem_append] at hs
    rcases hs with h | h | h
    · exact hd_mem s h
    · rw [hf_mem s h, hd_day]
    · rw [(hk_mem s h).2, hf_day, hd_day]
  · rw [hr_eq, hday2] at *
    rcases hr_day with hsame | hinc
    · rw [hsame, hday2]
      refine ⟨?_, le_refl _, by omega, by omega⟩
      intro s hs
      simp only [List.mem_append, List.mem_cons, List.not_mem_nil, or_false] at hs
      rcases hs with h | h | h | h | h
      · exact hd_mem s h
      · rw [hf_mem s h, hd_day]
      · rw [(hk_mem s h).2, hf_day, hd_day]
      · rw [h, hAd, hday2]
      · rw [h, hBd, hday2]
    · rw [hinc, hday2]
      refine ⟨?_, by omega, by omega, ?_⟩
      · intro s hs
        simp only [List.mem_append, List.mem_cons, List.not_mem_nil, or_false] at hs
        rcases hs with h | h | h | h | h
        · exact hd_mem s h
        · rw [hf_mem s h, hd_day]
        · rw [(hk_mem s h).2, hf_day, hd_day]
        · rw [h, hAd, hday2]
        · rw [h, hBd, hday2]
      · intro _
        refine ⟨(drive_phase o st).1 ++
          ((fuel_phase dist o (drive_phase o st).2).1 ++
            ((break_phase o (fuel_phase dist o (drive_phase o st).2).2).1 ++
              [A])), B, ?_, hB, ?_⟩
        · simp [List.append_assoc]
        · rw [hBd, hday2]

lemma getLast?_mem_of_eq {l : List RouteInstruction} {x : RouteInstruction}
    (h : l.getLast? = some x) : x ∈ l := by
  have hne : l ≠ [] := by
    rintro rfl
    simp at h
  rw [List.getLast?_eq_getLast_of_ne_nil hne] at h
  obtain rfl : l.getLast hne = x := Option.some.inj h
  exact List.getLast_mem hne

lemma head?_mem_of_eq {l : List RouteInstruction} {x : RouteInstruction}
    (h : l.head? = some x) : x ∈ l := by
  cases l with
  | nil => simp at h
  | cons a t =>
    obtain rfl : a = x := Option.some.inj h
    exact List.mem_cons_self _ _

/-- Day indices along the segments the main loop emits: monotone from the
entry state's day, chained by `dayRel`, starting at the entry day, and
with the final state's day reachable from the last emitted segment. -/
lemma sim_loop_days (dist : ℚ) (o : ℕ → Location) :
    ∀ (fuel : ℕ) (st : SimState) (out : List RouteInstruction × SimState),
      sim_loop dist o fuel st = some out →
      (∀ s ∈ out.1, st.current_day ≤ s.day ∧ s.day ≤ out.2.current_day) ∧
      List.Chain' dayRel out.1 ∧
      (∀ s, out.1.head? = some s → s.day = st.current_day) ∧
      st.current_day ≤ out.2.current_day ∧
      (∀ a, out.1.getLast? = some a → a.day ≤ out.2.current_day ∧
        out.2.current_day ≤ a.day + 1 ∧
        (a.day < out.2.current_day → a.halt_type = Halt.OFF_DUTY)) ∧
      (out.1 = [] → out.2.current_day = st.current_day) := by
  intro fuel
  induction fuel with
  | zero =>
    intro st out hloop
    rw [sim_loop] at hloop
    split_ifs at hloop with hc
    obtain rfl : ([], st) = out := Option.some.inj hloop
    exact ⟨by simp, List.chain'_nil, by simp, le_refl _, by simp, fun _ => rfl⟩
  | succ n ih =>
    intro st out hloop
    rw [sim_loop] at hloop
    split_ifs at hloop with hc
    · simp only [Option.map_eq_some'] at hloop
      obtain ⟨rest, hrest, hout⟩ := hloop
      subst hout
      obtain ⟨hmem, hle, hle1, hinc⟩ := sim_step_day dist o st
      obtain ⟨gmem, gchain, ghead, gle, glast, gnil⟩ :=
        ih (sim_step dist o st).2 rest hrest
      dsimp only
      refine ⟨?_, ?_, ?_, le_trans hle gle, ?_, ?_⟩
      · intro s hs
        rcases List.mem_append.mp hs with h | h
        · have h1 := hmem s h
          constructor
          · omega
          · have h2 := gle
            omega
        · obtain ⟨h1, h2⟩ := gmem s h
          exact ⟨le_trans hle h1, h2⟩
      · refine List.Chain'.append (chain_const_day _ _ hmem) gchain ?_
        intro x hx y hy
        rw [Option.mem_def] at hx hy
        have hxmem : x ∈ (sim_step dist o st).1 := getLast?_mem_of_eq hx
        have hxday : x.day = st.current_day := hmem x hxmem
        have hyday : y.day = (sim_step dist o st).2.current_day := ghead y hy
        refine ⟨by omega, by omega, ?_⟩
        intro hlt
        have hd1 : (sim_step dist o st).2.current_day = st.current_day + 1 := by
          omega
        obtain ⟨ys, B, heq, hBh, hBd⟩ := hinc hd1
        have hxB : x = B := by
          rw [heq, List.getLast?_concat] at hx
          exact (Option.some.inj hx).symm
        rw [hxB]
        exact hBh
      · intro s hs
        cases hstep1 : (sim_step dist o st).1 with
        | nil =>
          rw [hstep1, List.nil_append] at hs
          have hnoinc : (sim_step dist o st).2.current_day = st.current_day := by
            by_cases hd : (sim_step dist o st).2.current_day = st.current_day + 1
            · obtain ⟨ys, B, heq, -, -⟩ := hinc hd
              rw [hstep1] at heq
              exact absurd heq.symm (by simp)
            · omega
          rw [ghead s hs, hnoinc]
        | cons a t =>
          rw [hstep1] at hs
          rw [List.cons_append, List.head?_cons] at hs
          have hsa : s = a := (Option.some.inj hs).symm
          rw [hsa]
          exact hmem a (by rw [hstep1]; exact List.mem_cons_self _ _)
      · intro a ha
        cases hrest1 : rest.1 with
        | nil =>
          rw [hrest1, List.append_nil] at ha
          have hamem : a ∈ (sim_step dist o st).1 := getLast?_mem_of_eq ha
          have haday : a.day = st.current_day := hmem a hamem
          have hfinal : rest.2.current_day = (sim_step dist o st).2.current_day :=
            gnil hrest1
          refine ⟨by omega, by omega, ?_⟩
          intro hlt
          have hd1 : (sim_step dist o st).2.current_day = st.current_day + 1 := by
            omega
          obtain ⟨ys, B, heq, hBh, hBd⟩ := hinc hd1
          have haB : a = B := by
            rw [heq, List.getLast?_concat] at ha
            exact (Option.some.inj ha).symm
          rw [haB]
          exact hBh
        | cons b t =>
          rw [hrest1, List.getLast?_append_cons] at ha
          have := glast a (by rw [hrest1]; exact ha)
          exact this
      · intro hnil
        rw [List.append_eq_nil] at hnil
        obtain ⟨h1, h2⟩ := hnil
        rw [gnil h2]
        by_cases hd : (sim_step dist o st).2.current_day = st.current_day + 1
        · obtain ⟨ys, B, heq, -, -⟩ := hinc hd
          rw [h1] at heq
          exact absurd heq.symm (by simp)
        · omega
    · obtain rfl : ([], st) = out := Option.some.inj hloop
      exact ⟨by simp, List.chain'_nil, by simp, le_refl _, by simp, fun _ => rfl⟩

/-! ## The waypoint oracle never influences the schedule data -/

lemma drive_phase_oracle (o₁ o₂ : ℕ → Location) (st : SimState) :
    (drive_phase o₁ st).1.map scheduleTriple =
      (drive_phase o₂ st).1.map scheduleTriple ∧
    (drive_phase o₁ st).2 = (drive_phase o₂ st).2 := by
  rw [drive_phase, drive_phase]
  split_ifs <;> simp [scheduleTriple]

lemma fuel_phase_oracle (dist : ℚ) (o₁ o₂ : ℕ → Location) (st : SimState) :
    (fuel_phase dist o₁ st).1.map scheduleTriple =
      (fuel_phase dist o₂ st).1.map scheduleTriple ∧
    (fuel_phase dist o₁ st).2 = (fuel_phase dist o₂ st).2 := by
  rw [fuel_phase, fuel_phase]
  split_ifs <;> simp [scheduleTriple]

lemma break_phase_oracle (o₁ o₂ : ℕ → Location) (st : SimState) :
    (break_phase o₁ st).1.map scheduleTriple =
      (break_phase o₂ st).1.map scheduleTriple ∧
    (break_phase o₁ st).2 = (break_phase o₂ st).2 := by
  rw [break_phase, break_phase]
  split_ifs <;> simp [scheduleTriple]

lemma rest_phase_oracle (o₁ o₂ : ℕ → Location) (st : SimState) :
    (rest_phase o₁ st).1.map scheduleTriple =
      (rest_phase o₂ st).1.map scheduleTriple ∧
    (rest_phase o₁ st).2 = (rest_phase o₂ st).2 := by
  rw [rest_phase, rest_phase]
  split_ifs <;> simp [scheduleTriple]

lemma sim_step_oracle (dist : ℚ) (o₁ o₂ : ℕ → Location) (st : SimState) :
    (sim_step dist o₁ st).1.map scheduleTriple =
      (sim_step dist o₂ st).1.map scheduleTriple ∧
    (sim_step dist o₁ st).2 = (sim_step dist o₂ st).2 := by
  have h1 : sim_step dist o₁ st =
      ((drive_phase o₁ st).1 ++ ((fuel_phase dist o₁ (drive_phase o₁ st).2).1 ++
        ((break_phase o₁ (fuel_phase dist o₁ (drive_phase o₁ st).2).2).1 ++
         (rest_phase o₁
           (break_phase o₁ (fuel_phase dist o₁ (drive_phase o₁ st).2).2).2).1)),
       (rest_phase o₁
         (break_phase o₁ (fuel_phase dist o₁ (drive_phase o₁ st).2).2).2).2) := rfl
  have h2 : sim_step dist o₂ st =
      ((drive_phase o₂ st).1 ++ ((fuel_phase dist o₂ (drive_phase o₂ st).2).1 ++
        ((break_phase o₂ (fuel_phase dist o₂ (drive_phase o₂ st).2).2).1 ++
         (rest_phase o₂
           (break_phase o₂ (fuel_phase dist o₂ (drive_phase o₂ st).2).2).2).1)),
       (rest_phase o₂
         (break_phase o₂ (fuel_phase dist o₂ (drive_phase o₂ st).2).2).2).2) := rfl
  obtain ⟨hd1, hd2⟩ := drive_phase_oracle o₁ o₂ st
  rw [h1, h2, ← hd2]
  obtain ⟨hf1, hf2⟩ := fuel_phase_oracle dist o₁ o₂ (drive_phase o₁ st).2
  rw [← hf2]
  obtain ⟨hk1, hk2⟩ :=
    break_phase_oracle o₁ o₂ (fuel_phase dist o₁ (drive_phase o₁ st).2).2
  rw [← hk2]
  obtain ⟨hr1, hr2⟩ := rest_phase_oracle o₁ o₂
    (break_phase o₁ (fuel_phase dist o₁ (drive_phase o₁ st).2).2).2
  refine ⟨?_, hr2⟩
  dsimp only
  rw [List.map_append, List.map_append, List.map_append, List.map_append,
    List.map_append, List.map_append, hd1, hf1, hk1, hr1]

lemma sim_loop_oracle (dist : ℚ) (o₁ o₂ : ℕ → Location) :
    ∀ (fuel : ℕ) (st : SimState),
      (sim_loop dist o₁ fuel st).map
        (fun p => (p.1.map scheduleTriple, p.2)) =
      (sim_loop dist o₂ fuel st).map
        (fun p => (p.1.map scheduleTriple, p.2)) := by
  intro fuel
  induction fuel with
  | zero =>
    intro st
    rfl
  | succ n ih =>
    intro st
    simp only [sim_loop]
    split_ifs with hc
    · obtain ⟨hs1, hs2⟩ := sim_step_oracle dist o₁ o₂ st
      rw [← hs2]
      have hih := ih (sim_step dist o₁ st).2
      cases hres1 : sim_loop dist o₁ n (sim_step dist o₁ st).2 with
      | none =>
        rw [hres1] at hih
        cases hres2 : sim_loop dist o₂ n (sim_step dist o₁ st).2 with
        | none => rfl
        | some p₂ =>
          rw [hres2] at hih
          exact absurd hih (by simp)
      | some p₁ =>
        rw [hres1] at hih
        cases hres2 : sim_loop dist o₂ n (sim_step dist o₁ st).2 with
        | none =>
          rw [hres2] at hih
          exact absurd hih (by simp)
        | some p₂ =>
          rw [hres2] at hih
          simp only [Option.map_some', Option.some.injEq, Prod.mk.injEq] at hih
          obtain ⟨hl, hs⟩ := hih
          simp only [Option.map_some', Option.some.injEq, Prod.mk.injEq]
          constructor
          · rw [List.map_append, List.map_append, hs1, hl]
          · rw [hs]
    · rfl

/-! ## Inversion of the wrapper and the claim theorems -/

/-- If the remaining distance is already within the epsilon, the loop
exits at once, for any fuel. -/
lemma sim_loop_exit (dist : ℚ) (o : ℕ → Location) (fuel : ℕ) (st : SimState)
    (h : ¬ st.remaining_distance > EPSILON) :
    sim_loop dist o fuel st = some ([], st) := by
  cases fuel <;> rw [sim_loop, if_neg h]

lemma core_inversion (d : ℚ) (p q : Location) (o : ℕ → Location) (fuel : ℕ)
    (res : List RouteInstruction × ℕ)
    (h : generate_route_instructions_core d p q o fuel = some res) :
    ∃ lp, sim_loop d o fuel (initial_state d) = some lp ∧
      res.1 = [pre_trip_instruction p, pickup_instruction p] ++ lp.1 ++
        [dropoff_instruction q lp.2.current_day] ∧
      res.2 = (if lp.2.current_time + PICKUP_DROPOFF_DURATION / 60 < 24
               then lp.2.current_day else lp.2.current_day + 1) := by
  unfold generate_route_instructions_core at h
  simp only [Option.map_eq_some'] at h
  obtain ⟨lp, hlp, hres⟩ := h
  exact ⟨lp, hlp, by rw [← hres], by rw [← hres]⟩

/-- Inverting a successful run of `generate_route_instructions`:
the emitted trip stores the core's segments and day count, its distance
being the resolved one. -/
lemma generate_ok_inversion (provider : Option ℚ) (o : ℕ → Location)
    (fuel : ℕ) (trip t' : Trip)
    (h : generate_route_instructions provider o fuel trip =
      some (SimOutcome.ok t')) :
    ∃ res, generate_route_instructions_core t'.distance trip.pickup_location
        trip.dropoff_location o fuel = some res ∧
      t'.route_instructions = res.1 ∧ t'.number_of_days = res.2 ∧
      t'.pickup_location = trip.pickup_location ∧
      t'.dropoff_location = trip.dropoff_location ∧
      (trip.distance = 0 → provider = some t'.distance) ∧
      (trip.distance ≠ 0 → t'.distance = trip.distance) := by
  unfold generate_route_instructions at h
  split_ifs at h with h0
  · cases hp : provider with
    | none =>
      rw [hp] at h
      simp at h
    | some dq =>
      rw [hp] at h
      simp only [Option.map_eq_some'] at h
      obtain ⟨res, hres, hok⟩ := h
      have ht' := SimOutcome.ok.inj hok
      subst ht'
      refine ⟨res, hres, rfl, rfl, rfl, rfl, fun _ => rfl, fun hne => ?_⟩
      exact absurd h0 hne
  · simp only [Option.map_eq_some'] at h
    obtain ⟨res, hres, hok⟩ := h
    have ht' := SimOutcome.ok.inj hok
    subst ht'
    refine ⟨res, hres, rfl, rfl, rfl, rfl, fun habs => ?_, fun _ => rfl⟩
    exact absurd habs h0

lemma OpenWindow_initial (d : ℚ) (p : Location) :
    OpenWindow [pre_trip_instruction p, pickup_instruction p]
      (initial_state d) := by
  constructor
  · intro s hs
    simp only [List.mem_cons, List.not_mem_nil, or_false] at hs
    rcases hs with rfl | rfl <;>
      simp [pre_trip_instruction, pickup_instruction]
  · simp [breakCount_cons, breakCount_nil, pre_trip_instruction,
      pickup_instruction, initial_state]
  · simp [driveSum_cons, driveSum_nil, pre_trip_instruction,
      pickup_instruction]
  · simp [driveSum_cons, driveSum_nil, pre_trip_instruction,
      pickup_instruction, initial_state]
  · intro h
    simp [initial_state] at h
  · intro s hs
    simp only [List.mem_cons, List.not_mem_nil, or_false] at hs
    rcases hs with rfl | rfl <;>
      simp [pre_trip_instruction, pickup_instruction]

lemma splitWindows_ne_nil (l : List RouteInstruction) :
    splitWindows l ≠ [] := by
  cases l with
  | nil => simp [splitWindows]
  | cons a t =>
    rw [splitWindows]
    split_ifs
    · simp
    · cases splitWindows t <;> simp

lemma mem_of_mem_splitWindows (l : List RouteInstruction)
    (s : RouteInstruction) (hs : s ∈ l) :
    ∃ w ∈ splitWindows l, s ∈ w := by
  induction l with
  | nil => simp at hs
  | cons a t ih =>
    rw [splitWindows]
    split_ifs with hoff
    · rcases List.mem_cons.mp hs with rfl | hmem
      · exact ⟨[s], by simp, by simp⟩
      · obtain ⟨w, hw1, hw2⟩ := ih hmem
        exact ⟨w, by simp [hw1], hw2⟩
    · cases hsw : splitWindows t with
      | nil => exact absurd hsw (splitWindows_ne_nil t)
      | cons w ws =>
        rcases List.mem_cons.mp hs with rfl | hmem
        · exact ⟨s :: w, by simp, by simp⟩
        · obtain ⟨w2, hw1, hw2⟩ := ih hmem
          rw [hsw] at hw1
          rcases List.mem_cons.mp hw1 with rfl | htail
          · exact ⟨a :: w2, by simp, by simp [hw2]⟩
          · exact ⟨w2, by simp [htail], hw2⟩

/-- C1 (claim): for every successfully simulated trip with non-negative
resolved distance `d`, the recorded `DRIVE` minutes, divided by 60 and
multiplied by the 55 mph average speed, recover `d` up to the rounding
tolerance: one truncated minute (`int(...)`) per `DRIVE` segment plus
the 0.01-mile loop epsilon. -/
theorem claim_C1_drive_minutes_account_for_distance
    (provider : Option ℚ) (o : ℕ → Location) (fuel : ℕ) (trip t' : Trip)
    (hrun : generate_route_instructions provider o fuel trip =
      some (SimOutcome.ok t'))
    (hd : 0 ≤ t'.distance) :
    0 ≤ t'.distance - 55 * (driveSum t'.route_instructions : ℚ) / 60 ∧
    t'.distance - 55 * (driveSum t'.route_instructions : ℚ) / 60 ≤
      55 * (driveCount t'.route_instructions : ℚ) / 60 + EPSILON := by
  obtain ⟨res, hcore, hsegs, -, -, -, -, -⟩ :=
    generate_ok_inversion provider o fuel trip t' hrun
  obtain ⟨lp, hlp, hres1, -⟩ :=
    core_inversion t'.distance trip.pickup_location trip.dropoff_location
      o fuel res hcore
  obtain ⟨g1, g2, g3, g4⟩ :=
    sim_loop_sum t'.distance o fuel (initial_state t'.distance) lp hlp
  have hrem0 : (initial_state t'.distance).remaining_distance = t'.distance :=
    rfl
  rw [hrem0] at g1 g2
  have hfin : 0 ≤ lp.2.remaining_distance := g4 (by rw [hrem0]; exact hd)
  have heps : lp.2.remaining_distance ≤ EPSILON := le_of_not_lt g3
  have hds : driveSum t'.route_instructions = driveSum lp.1 := by
    rw [hsegs, hres1, driveSum_append, driveSum_append]
    simp [driveSum_cons, driveSum_nil, pre_trip_instruction,
      pickup_instruction, dropoff_instruction]
  have hdc : driveCount t'.route_instructions = driveCount lp.1 := by
    rw [hsegs, hres1, driveCount_append, driveCount_append]
    simp [driveCount_cons, driveCount_nil, pre_trip_instruction,
      pickup_instruction, dropoff_instruction]
  rw [hds, hdc]
  constructor <;> linarith

/-- C2 (claim): in every emitted schedule, no on-duty window (span
between rest resets) ever contains more than one `BREAK` segment, and a
window whose cumulative recorded driving reaches the 8-hour threshold
(480 minutes) contains exactly one. -/
theorem claim_C2_one_break_per_window
    (provider : Option ℚ) (o : ℕ → Location) (fuel : ℕ) (trip t' : Trip)
    (hrun : generate_route_instructions provider o fuel trip =
      some (SimOutcome.ok t'))
    (hd : 0 ≤ t'.distance) :
    ∀ win ∈ splitWindows t'.route_instructions,
      breakCount win ≤ 1 ∧ (480 ≤ driveSum win → breakCount win = 1) := by
  obtain ⟨res, hcore, hsegs, -, -, -, -, -⟩ :=
    generate_ok_inversion provider o fuel trip t' hrun
  obtain ⟨lp, hlp, hres1, -⟩ :=
    core_inversion t'.distance trip.pickup_location trip.dropoff_location
      o fuel res hcore
  have hwins := sim_loop_windows t'.distance o
    [dropoff_instruction trip.dropoff_location lp.2.current_day]
    (by
      intro s hs
      simp only [List.mem_singleton] at hs
      subst hs
      simp [dropoff_instruction])
    fuel (initial_state t'.distance)
    [pre_trip_instruction trip.pickup_location,
     pickup_instruction trip.pickup_location] lp
    (Inv_initial t'.distance hd)
    (OpenWindow_initial t'.distance trip.pickup_location) hlp
  intro win hwin
  rw [hsegs, hres1] at hwin
  obtain ⟨b1, b2, -, -⟩ := hwins win hwin
  exact ⟨b1, fun h => b2.mpr h⟩

/-- C9 (claim): every `DRIVE` segment lasts at most 480 minutes, and the
recorded driving within any single on-duty window never exceeds 11 hours
(660 minutes). -/
theorem claim_C9_drive_caps
    (provider : Option ℚ) (o : ℕ → Location) (fuel : ℕ) (trip t' : Trip)
    (hrun : generate_route_instructions provider o fuel trip =
      some (SimOutcome.ok t'))
    (hd : 0 ≤ t'.distance) :
    (∀ s ∈ t'.route_instructions, s.halt_type = Halt.DRIVE →
      s.duration ≤ 480) ∧
    ∀ win ∈ splitWindows t'.route_instructions, driveSum win ≤ 660 := by
  obtain ⟨res, hcore, hsegs, -, -, -, -, -⟩ :=
    generate_ok_inversion provider o fuel trip t' hrun
  obtain ⟨lp, hlp, hres1, -⟩ :=
    core_inversion t'.distance trip.pickup_location trip.dropoff_location
      o fuel res hcore
  have hwins := sim_loop_windows t'.distance o
    [dropoff_instruction trip.dropoff_location lp.2.current_day]
    (by
      intro s hs
      simp only [List.mem_singleton] at hs
      subst hs
      simp [dropoff_instruction])
    fuel (initial_state t'.distance)
    [pre_trip_instruction trip.pickup_location,
     pickup_instruction trip.pickup_location] lp
    (Inv_initial t'.distance hd)
    (OpenWindow_initial t'.distance trip.pickup_location) hlp
  constructor
  · intro s hs hdr
    rw [hsegs, hres1] at hs
    obtain ⟨w, hw1, hw2⟩ := mem_of_mem_splitWindows _ s hs
    obtain ⟨-, -, -, b4⟩ := hwins w hw1
    exact b4 s hw2 hdr
  · intro win hwin
    rw [hsegs, hres1] at hwin
    obtain ⟨-, -, b3, -⟩ := hwins win hwin
    exact b3

/-- C3 (claim): every emitted segment's day index is at least 1; the day
index never decreases from one segment to the next and increases by at
most one, any increase happening only across the `OFF_DUTY` tail of a
rest; and during a fired 10-hour rest the day advances by exactly one
precisely when the running wall-clock variable crosses the 24-hour
boundary (in which case 24 hours are subtracted from it). -/
theorem claim_C3_day_indices
    (provider : Option ℚ) (o : ℕ → Location) (fuel : ℕ) (trip t' : Trip)
    (hrun : generate_route_instructions provider o fuel trip =
      some (SimOutcome.ok t')) :
    (∀ s ∈ t'.route_instructions, 1 ≤ s.day) ∧
    List.Chain' dayRel t'.route_instructions ∧
    (∀ st : SimState,
      (st.total_driving_time_today ≥ MAX_DRIVE_HOURS_PER_DAY ∨
       st.on_duty_window ≥ MAX_ON_DUTY_HOURS_PER_DAY) →
      st.remaining_distance > EPSILON →
      (rest_phase o st).2.current_day =
        (if st.current_time + SLEEPER_BERTH_DURATION + OFF_DUTY_DURATION ≥ 24
         then st.current_day + 1 else st.current_day) ∧
      (rest_phase o st).2.current_time =
        (if st.current_time + SLEEPER_BERTH_DURATION + OFF_DUTY_DURATION ≥ 24
         then st.current_time + SLEEPER_BERTH_DURATION + OFF_DUTY_DURATION - 24
         else st.current_time + SLEEPER_BERTH_DURATION +
           OFF_DUTY_DURATION)) := by
  obtain ⟨res, hcore, hsegs, -, -, -, -, -⟩ :=
    generate_ok_inversion provider o fuel trip t' hrun
  obtain ⟨lp, hlp, hres1, -⟩ :=
    core_inversion t'.distance trip.pickup_location trip.dropoff_location
      o fuel res hcore
  obtain ⟨gmem, gchain, ghead, gle, glast, gnil⟩ :=
    sim_loop_days t'.distance o fuel (initial_state t'.distance) lp hlp
  have hday0 : (initial_state t'.distance).current_day = 1 := rfl
  rw [hday0] at gmem ghead gle gnil
  refine ⟨?_, ?_, ?_⟩
  · intro s hs
    rw [hsegs, hres1] at hs
    simp only [List.append_assoc, List.mem_append, List.mem_cons,
      List.not_mem_nil, or_false] at hs
    rcases hs with (rfl | rfl) | hs | rfl
    · rfl
    · rfl
    · exact (gmem s hs).1
    · simp only [dropoff_instruction]
      omega
  · rw [hsegs, hres1]
    have hpre : List.Chain' dayRel
        [pre_trip_instruction trip.pickup_location,
         pickup_instruction trip.pickup_location] :=
      chain_const_day _ 1 (by
        intro s hs
        simp only [List.mem_cons, List.not_mem_nil, or_false] at hs
        rcases hs with rfl | rfl <;> rfl)
    have hA : List.Chain' dayRel
        ([pre_trip_instruction trip.pickup_location,
          pickup_instruction trip.pickup_location] ++ lp.1) := by
      refine List.Chain'.append hpre gchain ?_
      intro x hx y hy
      rw [Option.mem_def] at hx hy
      have hx2 : pickup_instruction trip.pickup_location = x := by
        simpa using hx
      have hyday : y.day = 1 := ghead y hy
      subst hx2
      exact ⟨by simp [pickup_instruction, hyday], by
        simp [pickup_instruction, hyday], by
        simp [pickup_instruction, hyday]⟩
    refine List.Chain'.append hA (List.chain'_singleton _) ?_
    intro x hx y hy
    rw [Option.mem_def] at hx hy
    have hy2 : dropoff_instruction trip.dropoff_location
        lp.2.current_day = y := by
      simpa using hy
    subst hy2
    cases hlp1 : lp.1 with
    | nil =>
      rw [hlp1, List.append_nil] at hx
      have hx2 : pickup_instruction trip.pickup_location = x := by
        simpa using hx
      subst hx2
      have hfin : lp.2.current_day = 1 := gnil hlp1
      exact ⟨by simp [pickup_instruction, dropoff_instruction, hfin], by
        simp [pickup_instruction, dropoff_instruction, hfin], by
        simp [pickup_instruction, dropoff_instruction, hfin]⟩
    | cons b t =>
      rw [hlp1, List.getLast?_append_cons] at hx
      obtain ⟨k1, k2, k3⟩ := glast x (by rw [hlp1]; exact hx)
      exact ⟨by simpa [dropoff_instruction] using k1, by
        simpa [dropoff_instruction] using k2, fun hlt => k3 (by
          simpa [dropoff_instruction] using hlt)⟩
  · intro st h1 h2
    rw [rest_phase_pos o st ⟨h1, h2⟩]
    exact ⟨rfl, rfl⟩

/-- C4 (claim): a trip whose stored distance is zero and which the
provider resolves to at most the 0.01-mile epsilon produces exactly the
three fixed segments — the 120-minute pre-trip `ON_DUTY_NOT_DRIVING`,
the 60-minute pickup `STOP` and the 60-minute dropoff `STOP` — with
`number_of_days = 1`. -/
theorem claim_C4_zero_distance_trip
    (o : ℕ → Location) (fuel : ℕ) (trip : Trip) (dres : ℚ)
    (h0 : trip.distance = 0) (_hd0 : 0 ≤ dres) (hde : dres ≤ EPSILON) :
    generate_route_instructions (some dres) o fuel trip =
      some (SimOutcome.ok { trip with
        distance := dres
        route_instructions :=
          [pre_trip_instruction trip.pickup_location,
           pickup_instruction trip.pickup_location,
           dropoff_instruction trip.dropoff_location 1]
        number_of_days := 1 }) := by
  unfold generate_route_instructions
  rw [if_pos h0]
  dsimp only
  unfold generate_route_instructions_core
  rw [sim_loop_exit dres o fuel (initial_state dres) (by
    have h : (initial_state dres).remaining_distance = dres := rfl
    rw [h]
    exact not_lt.mpr hde)]
  simp only [Option.map_some', Option.some.injEq]
  have htime : (initial_state dres).current_time +
      PICKUP_DROPOFF_DURATION / 60 < 24 := by
    norm_num [initial_state, PICKUP_DROPOFF_DURATION, DRIVER_WAKE_UP_TIME,
      DRIVER_START_TIME]
  rw [if_pos htime]
  rfl

/-- C5 (claim): a run of `generate_route_instructions` raises (the
`ValueError`) exactly when the trip's stored distance is zero and the
distance provider fails; and on that error path the trip is handed back
exactly as it was — no segments, distance or day count were written. -/
theorem claim_C5_error_only_unresolved_distance
    (provider : Option ℚ) (o : ℕ → Location) (fuel : ℕ) (trip : Trip)
    (r : SimOutcome)
    (hrun : generate_route_instructions provider o fuel trip = some r) :
    ((∃ t, r = SimOutcome.error t) ↔ (trip.distance = 0 ∧ provider = none)) ∧
    (∀ t, r = SimOutcome.error t → t = trip) := by
  unfold generate_route_instructions at hrun
  split_ifs at hrun with h0
  · cases hp : provider with
    | none =>
      rw [hp] at hrun
      obtain rfl : SimOutcome.error trip = r := Option.some.inj hrun
      refine ⟨⟨fun _ => ⟨h0, rfl⟩, fun _ => ⟨trip, rfl⟩⟩, ?_⟩
      intro t ht
      exact (SimOutcome.error.inj ht).symm
    | some dq =>
      rw [hp] at hrun
      simp only [Option.map_eq_some'] at hrun
      obtain ⟨res, -, hok⟩ := hrun
      subst hok
      constructor
      · constructor
        · rintro ⟨t, ht⟩
          simp at ht
        · rintro ⟨-, habs⟩
          simp at habs
      · intro t ht
        simp at ht
  · simp only [Option.map_eq_some'] at hrun
    obtain ⟨res, -, hok⟩ := hrun
    subst hok
    constructor
    · constructor
      · rintro ⟨t, ht⟩
        simp at ht
      · rintro ⟨habs, -⟩
        exact absurd habs h0
    · intro t ht
      simp at ht

lemma core_oracle (d : ℚ) (p q : Location) (o₁ o₂ : ℕ → Location)
    (fuel : ℕ) :
    (generate_route_instructions_core d p q o₁ fuel).map
      (fun r => (r.1.map scheduleTriple, r.2)) =
    (generate_route_instructions_core d p q o₂ fuel).map
      (fun r => (r.1.map scheduleTriple, r.2)) := by
  have h := sim_loop_oracle d o₁ o₂ fuel (initial_state d)
  unfold generate_route_instructions_core
  cases h1 : sim_loop d o₁ fuel (initial_state d) with
  | none =>
    rw [h1] at h
    cases h2 : sim_loop d o₂ fuel (initial_state d) with
    | none => rfl
    | some lp₂ =>
      rw [h2] at h
      exact absurd h (by simp)
  | some lp₁ =>
    rw [h1] at h
    cases h2 : sim_loop d o₂ fuel (initial_state d) with
    | none =>
      rw [h2] at h
      exact absurd h (by simp)
    | some lp₂ =>
      rw [h2] at h
      simp only [Option.map_some', Option.some.injEq, Prod.mk.injEq] at h
      obtain ⟨hl, hs⟩ := h
      simp only [Option.map_some', Option.some.injEq, Prod.mk.injEq]
      constructor
      · rw [List.map_append, List.map_append, List.map_append,
          List.map_append, hl, hs]
      · rw [hs]

/-- C8 (claim): running `generate_route_instructions` twice on the same
trip parameters yields schedules with identical sequences of
(halt category, duration, day) triples, the same resolved distance, day
count and outcome kind — only the waypoint locations, which come from
the oracle, may differ. -/
theorem claim_C8_schedule_independent_of_waypoints
    (provider : Option ℚ) (o₁ o₂ : ℕ → Location) (fuel : ℕ) (trip : Trip) :
    (generate_route_instructions provider o₁ fuel trip).map outcomeSchedule =
    (generate_route_instructions provider o₂ fuel trip).map
      outcomeSchedule := by
  unfold generate_route_instructions
  split_ifs with h0
  · cases provider with
    | none => rfl
    | some dq =>
      dsimp only
      have h := core_oracle dq trip.pickup_location trip.dropoff_location
        o₁ o₂ fuel
      cases h1 : generate_route_instructions_core dq trip.pickup_location
          trip.dropoff_location o₁ fuel with
      | none =>
        rw [h1] at h
        cases h2 : generate_route_instructions_core dq trip.pickup_location
            trip.dropoff_location o₂ fuel with
        | none => rfl
        | some res₂ =>
          rw [h2] at h
          exact absurd h (by simp)
      | some res₁ =>
        rw [h1] at h
        cases h2 : generate_route_instructions_core dq trip.pickup_location
            trip.dropoff_location o₂ fuel with
        | none =>
          rw [h2] at h
          exact absurd h (by simp)
        | some res₂ =>
          rw [h2] at h
          simp only [Option.map_some', Option.some.injEq, Prod.mk.injEq] at h
          obtain ⟨hl, hs⟩ := h
          simp [outcomeSchedule, hl, hs]
  · have h := core_oracle trip.distance trip.pickup_location
      trip.dropoff_location o₁ o₂ fuel
    cases h1 : generate_route_instructions_core trip.distance
        trip.pickup_location trip.dropoff_location o₁ fuel with
    | none =>
      rw [h1] at h
      cases h2 : generate_route_instructions_core trip.distance
          trip.pickup_location trip.dropoff_location o₂ fuel with
      | none => rfl
      | some res₂ =>
        rw [h2] at h
        exact absurd h (by simp)
    | some res₁ =>
      rw [h1] at h
      cases h2 : generate_route_instructions_core trip.distance
          trip.pickup_location trip.dropoff_location o₂ fuel with
      | none =>
        rw [h2] at h
        exact absurd h (by simp)
      | some res₂ =>
        rw [h2] at h
        simp only [Option.map_some', Option.some.injEq, Prod.mk.injEq] at h
        obtain ⟨hl, hs⟩ := h
        simp [outcomeSchedule, hl, hs]

/-! ## `generate_random_current_location`: the fallback path (C6) -/

/-- A location name is labeled by a halt category when it starts with
the Python-capitalized form of the category. -/
def fallback_labeled_by (halt_type : String) (loc : Location) : Prop :=
  (pyCapitalize halt_type).data <+: loc.name.data

/-- C6 (amended): on any lookup failure,
`generate_random_current_location` propagates no error and returns the
fallback location at the arithmetic midpoint of pickup and dropoff; for
every halt category other than `"STOP"` its name is exactly the
capitalized halt type followed by `" Stop: Fallback Location"`
(`services.py` line 201), while for `"STOP"` it is the unlabeled
`"Fallback Location"`. -/
theorem claim_C6_amended_fallback (pickup dropoff : Location)
    (halt_type : String) (idx : ℕ) :
    (generate_random_current_location pickup dropoff halt_type none
      idx).latitude = (pickup.latitude + dropoff.latitude) / 2 ∧
    (generate_random_current_location pickup dropoff halt_type none
      idx).longitude = (pickup.longitude + dropoff.longitude) / 2 ∧
    (halt_type ≠ "STOP" →
      (generate_random_current_location pickup dropoff halt_type none
        idx).name =
        pyCapitalize halt_type ++ " Stop: Fallback Location") ∧
    (halt_type = "STOP" →
      (generate_random_current_location pickup dropoff halt_type none
        idx).name = "Fallback Location") := by
  refine ⟨rfl, rfl, ?_, ?_⟩
  · intro h
    unfold generate_random_current_location fallbackLocation
    dsimp only
    rw [if_pos h]
  · intro h
    unfold generate_random_current_location fallbackLocation
    dsimp only
    rw [if_neg (by simp [h])]

/-! ## Concrete inputs used by the witnesses -/

def witness_pickup : Location :=
  { name := "Pickup", address := "A", latitude := 40, longitude := -80 }

def witness_dropoff : Location :=
  { name := "Dropoff", address := "B", latitude := 42, longitude := -90 }

def witness_waypoint : Location :=
  { name := "Waypoint", address := "W", latitude := 41, longitude := -85 }

def witness_oracle : ℕ → Location := fun _ => witness_waypoint

def witness_trip : Trip :=
  { pickup_location := witness_pickup
    dropoff_location := witness_dropoff
    cycle_used := 0
    distance := 550
    number_of_days := 1
    route_instructions := [] }

def witness_trip_zero : Trip :=
  { pickup_location := witness_pickup
    dropoff_location := witness_dropoff
    cycle_used := 0
    distance := 0
    number_of_days := 1
    route_instructions := [] }

def witness_drive_segment : RouteInstruction :=
  { halt_type := Halt.DRIVE
    duration := 480
    description := "Driving"
    day := 1
    current_location := witness_waypoint }

/-- The schedule the simulator produces for the 550-mile witness trip
with the constant witness oracle. -/
def witness_result : Trip :=
  { pickup_location := witness_pickup
    dropoff_location := witness_dropoff
    cycle_used := 0
    distance := 550
    number_of_days := 1
    route_instructions :=
      [pre_trip_instruction witness_pickup,
       pickup_instruction witness_pickup,
       witness_drive_segment,
       { halt_type := Halt.BREAK
         duration := 30
         description := "Mandatory 30-minute rest break"
         day := 1
         current_location := witness_waypoint },
       { halt_type := Halt.DRIVE
         duration := 120
         description := "Driving"
         day := 1
         current_location := witness_waypoint },
       dropoff_instruction witness_dropoff 1] }

def witness_state : SimState :=
  { current_time := 10, current_day := 1, remaining_distance := 500,
    total_driving_time_today := 4, on_duty_window := 6,
    distance_covered := 1000, has_taken_break := false, oracle_pos := 3 }

/-! ## Witnesses and counterexamples -/

set_option maxRecDepth 10000 in
theorem claim_C1_witness :
    generate_route_instructions none witness_oracle 5 witness_trip =
      some (SimOutcome.ok witness_result) ∧
    0 ≤ witness_result.distance ∧
    0 ≤ witness_result.distance -
      55 * (driveSum witness_result.route_instructions : ℚ) / 60 ∧
    witness_result.distance -
      55 * (driveSum witness_result.route_instructions : ℚ) / 60 ≤
      55 * (driveCount witness_result.route_instructions : ℚ) / 60 +
        EPSILON := by
  refine ⟨by with_unfolding_all rfl, by with_unfolding_all decide, ?_, ?_⟩
  · exact (claim_C1_drive_minutes_account_for_distance none witness_oracle 5
      witness_trip witness_result (by with_unfolding_all rfl)
      (by with_unfolding_all decide)).1
  · exact (claim_C1_drive_minutes_account_for_distance none witness_oracle 5
      witness_trip witness_result (by with_unfolding_all rfl)
      (by with_unfolding_all decide)).2

set_option maxRecDepth 10000 in
theorem claim_C2_witness :
    generate_route_instructions none witness_oracle 5 witness_trip =
      some (SimOutcome.ok witness_result) ∧
    witness_result.route_instructions ∈
      splitWindows witness_result.route_instructions ∧
    breakCount witness_result.route_instructions ≤ 1 ∧
    breakCount witness_result.route_instructions = 1 := by
  refine ⟨by with_unfolding_all rfl, by with_unfolding_all decide, ?_, ?_⟩
  · exact (claim_C2_one_break_per_window none witness_oracle 5 witness_trip
      witness_result (by with_unfolding_all rfl) (by with_unfolding_all decide)
      witness_result.route_instructions (by with_unfolding_all decide)).1
  · exact (claim_C2_one_break_per_window none witness_oracle 5 witness_trip
      witness_result (by with_unfolding_all rfl) (by with_unfolding_all decide)
      witness_result.route_instructions (by with_unfolding_all decide)).2
      (by with_unfolding_all decide)

set_option maxRecDepth 10000 in
theorem claim_C3_witness :
    generate_route_instructions none witness_oracle 5 witness_trip =
      some (SimOutcome.ok witness_result) ∧
    1 ≤ (pre_trip_instruction witness_pickup).day ∧
    List.Chain' dayRel witness_result.route_instructions := by
  refine ⟨by with_unfolding_all rfl, ?_, ?_⟩
  · exact (claim_C3_day_indices none witness_oracle 5 witness_trip
      witness_result (by with_unfolding_all rfl)).1
      (pre_trip_instruction witness_pickup) (by with_unfolding_all decide)
  · exact (claim_C3_day_indices none witness_oracle 5 witness_trip
      witness_result (by with_unfolding_all rfl)).2.1

theorem claim_C4_witness :
    generate_route_instructions (some 0) witness_oracle 3 witness_trip_zero =
      some (SimOutcome.ok { witness_trip_zero with
        distance := 0
        route_instructions :=
          [pre_trip_instruction witness_trip_zero.pickup_location,
           pickup_instruction witness_trip_zero.pickup_location,
           dropoff_instruction witness_trip_zero.dropoff_location 1]
        number_of_days := 1 }) :=
  claim_C4_zero_distance_trip witness_oracle 3 witness_trip_zero 0 rfl
    (le_refl 0) (by norm_num [EPSILON])

theorem claim_C5_witness :
    generate_route_instructions none witness_oracle 1 witness_trip_zero =
      some (SimOutcome.error witness_trip_zero) ∧
    witness_trip_zero.distance = 0 ∧ (none : Option ℚ) = none := by
  refine ⟨by with_unfolding_all rfl, ?_⟩
  exact (claim_C5_error_only_unresolved_distance none witness_oracle 1
    witness_trip_zero (SimOutcome.error witness_trip_zero)
    (by with_unfolding_all rfl)).1.mp ⟨witness_trip_zero, rfl⟩

/-- Counterexample to C6 as stated: for the halt category `"STOP"` the
fallback location's name is the bare `"Fallback Location"` and carries
no category label. -/
theorem claim_C6_counterexample :
    (generate_random_current_location witness_pickup witness_dropoff "STOP"
      none 0).name = "Fallback Location" ∧
    ¬ fallback_labeled_by "STOP"
      (generate_random_current_location witness_pickup witness_dropoff "STOP"
        none 0) := by
  refine ⟨by with_unfolding_all decide, ?_⟩
  unfold fallback_labeled_by
  with_unfolding_all decide

theorem claim_C6_witness :
    (generate_random_current_location witness_pickup witness_dropoff "FUEL"
      none 0).latitude =
      (witness_pickup.latitude + witness_dropoff.latitude) / 2 ∧
    (generate_random_current_location witness_pickup witness_dropoff "FUEL"
      none 0).name = "Fuel Stop: Fallback Location" := by
  refine ⟨(claim_C6_amended_fallback witness_pickup witness_dropoff
    "FUEL" 0).1, ?_⟩
  rw [(claim_C6_amended_fallback witness_pickup witness_dropoff "FUEL" 0).2.2.1
    (by decide)]
  decide

set_option maxRecDepth 10000 in
/-- Counterexample to C7 as stated: at distance 2447.5 miles the source,
which adds the 120-minute pickup-plus-dropoff interval after the loop,
reports 5 days, while the claimed final 60-minute dropoff interval would
report 4. -/
theorem claim_C7_counterexample :
    get_number_of_days 20 (4895 / 2) ≠
      get_number_of_days_claimed_tail 20 (4895 / 2) ∧
    get_number_of_days 20 (4895 / 2) = some 5 ∧
    get_number_of_days_claimed_tail 20 (4895 / 2) = some 4 := by
  with_unfolding_all decide

/-- C7 (amended): after its clock-simulation loop finishes,
`get_number_of_days` adds exactly one final 120-minute
pickup-plus-dropoff interval (`PICKUP_DROPOFF_DURATION * 2 / 60` hours)
to the running clock, increments the day count by one more if that
pushes the clock to 24 hours or beyond, and returns `max(1, days)`. -/
theorem claim_C7_day_estimator_tail (fuel : ℕ) (distance : ℚ) (n : ℕ)
    (h : get_number_of_days fuel distance = some n) :
    ∃ stf, days_loop fuel (days_initial_state (distance / AVG_SPEED_MPH)) =
        some stf ∧
      n = max 1 (if stf.current_time + PICKUP_DROPOFF_DURATION * 2 / 60 ≥ 24
                 then stf.num_days + 1 else stf.num_days) := by
  unfold get_number_of_days at h
  simp only [Option.map_eq_some'] at h
  obtain ⟨stf, h1, h2⟩ := h
  exact ⟨stf, h1, h2.symm⟩

set_option maxRecDepth 10000 in
theorem claim_C7_witness :
    get_number_of_days 10 550 = some 1 ∧
    ∃ stf, days_loop 10 (days_initial_state (550 / AVG_SPEED_MPH)) =
        some stf ∧
      1 = max 1 (if stf.current_time + PICKUP_DROPOFF_DURATION * 2 / 60 ≥ 24
                 then stf.num_days + 1 else stf.num_days) :=
  ⟨by with_unfolding_all rfl,
   claim_C7_day_estimator_tail 10 550 1 (by with_unfolding_all rfl)⟩

/-- C10 (claim): the day-count estimator's result is independent of the
non-driving overhead aggregates computed before its loop — for every
fuel and distance it coincides with the simplified function omitting
those computations — while, by contrast, the schedule simulator's fuel
phase does advance the clock by 30 minutes whenever a fuel stop fires. -/
theorem claim_C10_estimator_ignores_overhead :
    (∀ (fuel : ℕ) (distance : ℚ),
      get_number_of_days fuel distance =
        get_number_of_days_simplified fuel distance) ∧
    (∀ (dist : ℚ) (o : ℕ → Location) (st : SimState),
      dist ≥ FUEL_STOP_INTERVAL → st.distance_covered ≥ FUEL_STOP_INTERVAL →
      (fuel_phase dist o st).2.current_time =
        st.current_time + FUEL_STOP_DURATION / 60) := by
  constructor
  · intro _ _
    rfl
  · intro dist o st h1 h2
    rw [fuel_phase_pos dist o st ⟨h1, h2⟩]

theorem claim_C10_witness :
    get_number_of_days 10 550 = get_number_of_days_simplified 10 550 ∧
    (fuel_phase 1200 witness_oracle witness_state).2.current_time =
      witness_state.current_time + FUEL_STOP_DURATION / 60 :=
  ⟨claim_C10_estimator_ignores_overhead.1 10 550,
   claim_C10_estimator_ignores_overhead.2 1200 witness_oracle witness_state
     (by with_unfolding_all decide) (by with_unfolding_all decide)⟩

set_option maxRecDepth 10000 in
theorem claim_C9_witness :
    generate_route_instructions none witness_oracle 5 witness_trip =
      some (SimOutcome.ok witness_result) ∧
    witness_drive_segment.duration ≤ 480 ∧
    driveSum witness_result.route_instructions ≤ 660 := by
  refine ⟨by with_unfolding_all rfl, ?_, ?_⟩
  · exact (claim_C9_drive_caps none witness_oracle 5 witness_trip
      witness_result (by with_unfolding_all rfl)
      (by with_unfolding_all decide)).1 witness_drive_segment
      (by with_unfolding_all decide) (by with_unfolding_all decide)
  · exact (claim_C9_drive_caps none witness_oracle 5 witness_trip
      witness_result (by with_unfolding_all rfl)
      (by with_unfolding_all decide)).2
      witness_result.route_instructions (by with_unfolding_all decide)

set_option maxRecDepth 10000 in
theorem claim_C8_witness :
    (generate_route_instructions none witness_oracle 5 witness_trip).map
        outcomeSchedule =
      (generate_route_instructions none (fun _ => witness_pickup) 5
        witness_trip).map outcomeSchedule :=
  claim_C8_schedule_independent_of_waypoints none witness_oracle
    (fun _ => witness_pickup) 5 witness_trip

end TripService
